import Mathlib

/-!
Spectator crowd, hoof sound and track width of the horse racing game.

A shallow embedding of `src/map/spectators.js`: the texture cache built by
`createSpectators`, the layout loops that fill the spectator registry, and the
amortised per-frame animation of `updateSpectators`; of the cooldown of
`playHoofSound` in `src/sound.js`; and of the track width kept by `src/map/map.js`.

Counters and indices are integers, and the one product of integers that can leave
the range in which doubles are exact, `frameCount * updateCount`, is rounded to the
nearest double; coordinates and animation parameters are exact rationals.  `Math.random()` is an explicit stream of
draws in `[0, 1)`, `Date.now()` an explicit clock reading, and `Math.PI` and
`Math.sin` are taken from a `Host` record.
-/

namespace HorseGame

/-! ## Host environment -/

/-- The numeric library of the host: `Math.PI` and `Math.sin`. -/
structure Host where
  PI : ℚ
  sin : ℚ → ℚ

/-- One result of `Math.random()`: a number in `[0, 1)`. -/
structure Draw where
  val : ℚ
  nonneg : 0 ≤ val
  lt_one : val < 1

/-- Errors thrown by the JavaScript runtime. -/
inductive JsError where
  | typeError
  deriving DecidableEq, Repr

/-- JavaScript `a % b` on integers: the result takes the sign of the dividend. -/
def jsRem (a b : Int) : Int := Int.tmod a b

/-- `Math.floor(Math.random() * n)` for a draw `r`. -/
def randomIndex (r : Draw) (n : Nat) : Nat := Int.toNat (Int.floor (r.val * (n : ℚ)))

theorem randomIndex_lt (r : Draw) (n : Nat) (hn : 0 < n) : randomIndex r n < n := by
  unfold randomIndex
  have hn' : (0 : ℚ) < (n : ℚ) := by exact_mod_cast hn
  have h0 : (0 : ℚ) ≤ r.val * (n : ℚ) := mul_nonneg r.nonneg hn'.le
  have h1 : r.val * (n : ℚ) < (n : ℚ) := by
    have := mul_lt_mul_of_pos_right r.lt_one hn'
    simpa using this
  have hf : Int.floor (r.val * (n : ℚ)) < (n : Int) := by
    rw [Int.floor_lt]
    exact_mod_cast h1
  have hf0 : 0 ≤ Int.floor (r.val * (n : ℚ)) := Int.floor_nonneg.mpr h0
  omega

/-! ## Textures and the texture cache -/

/-- The `hairColors` table of `createSpectatorTexture`. -/
def hairColors : List String := ["#4a3728", "#1a1a1a", "#8b4513", "#daa520", "#a0522d"]

/-- A `THREE.CanvasTexture` drawn by `createSpectatorTexture`.  The canvas commands
depend only on the three arguments of the call (and on `hairColor`, which is
computed from `hairStyle`), so the texture is recorded by them. -/
structure Texture where
  color : String
  armUp : Bool
  hairStyle : Nat
  hairColor : String
  deriving DecidableEq, Repr

/-- The function `createSpectatorTexture(color, armUp, hairStyle)`. -/
def createSpectatorTexture (color : String) (armUp : Bool) (hairStyle : Nat) : Texture :=
  { color := color
    armUp := armUp
    hairStyle := hairStyle
    hairColor := hairColors.getD (hairStyle % hairColors.length) "undefined" }

/-- A JavaScript object used as a map from string keys to textures, in insertion order. -/
abbrev TextureCache := List (String × Texture)

/-- Property read `cache[key]`; `none` is `undefined`. -/
def cacheGet (cache : TextureCache) (key : String) : Option Texture :=
  List.lookup key cache

/-- Property write `cache[key] = t`: an existing key keeps its place, a new key is appended. -/
def cacheSet (cache : TextureCache) (key : String) (t : Texture) : TextureCache :=
  if cache.any (fun e => e.1 == key) then
    cache.map (fun e => if e.1 == key then (key, t) else e)
  else
    cache ++ [(key, t)]

/-- The template string for a cache key, with `armUp ? 'up' : 'down'` in the middle. -/
def textureKey (color : String) (armUp : Bool) (hair : Nat) : String :=
  color ++ "_" ++ (if armUp then "up" else "down") ++ "_" ++ toString hair

/-- The palette `shirtColors` of `createSpectators`. -/
def shirtColors : List String :=
  ["#ff6b6b", "#4ecdc4", "#ffe66d", "#95e1d3", "#f38181",
   "#aa96da", "#fcbad3", "#a8d8ea", "#ff9f43", "#6a89cc"]

/-- The list `hairStyles` of `createSpectators`. -/
def hairStyles : List Nat := [0, 1, 2, 3, 4, 5, 6, 7, 8, 9]

/-- The cache under construction together with the log of the calls made to
`createSpectatorTexture`. -/
structure CacheBuild where
  cache : TextureCache
  calls : List (String × Bool × Nat)

/-- The body of the inner `forEach` of the cache construction: two textures per
`(color, hair)` pair, first `up`, then `down`. -/
def cacheStep (color : String) (b : CacheBuild) (hair : Nat) : CacheBuild :=
  let b1 : CacheBuild :=
    { cache := cacheSet b.cache (textureKey color true hair) (createSpectatorTexture color true hair)
      calls := b.calls ++ [(color, true, hair)] }
  { cache := cacheSet b1.cache (textureKey color false hair) (createSpectatorTexture color false hair)
    calls := b1.calls ++ [(color, false, hair)] }

/-- The nested `forEach` loops that fill `textureCache` in `createSpectators`. -/
def buildTextureCache : CacheBuild :=
  shirtColors.foldl (fun b color => hairStyles.foldl (cacheStep color) b) { cache := [], calls := [] }

/-! ## Spectators and module state -/

/-- A spectator sprite: position, facing, current texture and `userData`. -/
structure Spectator where
  x : ℚ
  y : ℚ
  z : ℚ
  rotationY : ℚ
  map : Option Texture
  baseY : ℚ
  phase : ℚ
  speed : ℚ
  amplitude : ℚ
  color : String
  hair : Nat
  textureCache : TextureCache
  armUp : Bool

/-- The scene graph, reduced to the number of spectator sprites attached to it. -/
structure Scene where
  sprites : Nat
  deriving DecidableEq, Repr

/-- The module variables `scene` and `spectators`. -/
structure Module where
  scene : Option Scene
  spectators : List Spectator

/-- The module state right after loading: `scene = null`, `spectators = []`. -/
def Module.initial : Module := { scene := none, spectators := [] }

/-- The result of a call: the module state it leaves and the error thrown, if any. -/
structure Outcome where
  state : Module
  error : Option JsError

/-- The function `initSpectators(sceneRef)`. -/
def initSpectators (sceneRef : Option Scene) (m : Module) : Module :=
  { m with scene := sceneRef }

/-! ## Layout: `createSpectators` -/

def spectatorOffset : ℚ := 70
def rows : Nat := 3
def spacing : Int := 35
def startZ : Int := 200
def endZ : Int := -4200

/-- The values of `side` in `for (let side = -1; side <= 1; side += 2)`. -/
def sideValues : List Int := [-1, 1]

/-- The values taken by `z` in `for (let z = startZ; z > endZ; z -= spacing)`,
starting from `z`, with at most `fuel` iterations. -/
def zValues : Nat → Int → List Int
  | 0, _ => []
  | fuel + 1, z => if z > endZ then z :: zValues fuel (z - spacing) else []

/-- The longitudinal grid of the layout; the fuel is the length of the span, which
the loop cannot exhaust because `z` drops by `spacing` at every iteration. -/
def zGrid : List Int := zValues (startZ - endZ).toNat startZ

/-- State threaded through the layout loops. `draws` counts the results of
`Math.random()` consumed so far; once `error` is set the remaining iterations do
not run. -/
structure Layout where
  scene : Option Scene
  spectators : List Spectator
  draws : Nat
  error : Option JsError

/-- The sprite built for a non-skipped cell from the eight draws that follow the
skip test. -/
def makeSpectator (host : Host) (rnd : Nat → Draw) (cache : TextureCache)
    (side : Int) (rowX rowY : ℚ) (z : Int) (d : Nat) : Spectator :=
  let offsetX := ((rnd (d + 1)).val - 1 / 2) * 5
  let offsetZ := ((rnd (d + 2)).val - 1 / 2) * 5
  let color := shirtColors.get ⟨randomIndex (rnd (d + 3)) shirtColors.length,
    randomIndex_lt _ _ (by decide)⟩
  let armUp := decide ((rnd (d + 4)).val > 1 / 2)
  let hair := hairStyles.get ⟨randomIndex (rnd (d + 5)) hairStyles.length,
    randomIndex_lt _ _ (by decide)⟩
  let texture := cacheGet cache (textureKey color armUp hair)
  { x := rowX + offsetX
    y := rowY + 20
    z := (z : ℚ) + offsetZ
    rotationY := if side > 0 then -host.PI / 2 else host.PI / 2
    map := texture
    baseY := rowY + 8
    phase := (rnd (d + 6)).val * host.PI * 2
    speed := 2 + (rnd (d + 7)).val * 2
    amplitude := 1 + (rnd (d + 8)).val * (3 / 2)
    color := color
    hair := hair
    textureCache := cache
    armUp := armUp }

/-- The body of the innermost layout loop for the cell `(side, row, z)`. -/
def layoutCell (host : Host) (rnd : Nat → Draw) (cache : TextureCache)
    (side : Int) (rowX rowY : ℚ) (st : Layout) (z : Int) : Layout :=
  if st.error.isSome then st
  else if (rnd st.draws).val < 3 / 10 then { st with draws := st.draws + 1 }
  else
    let sprite := makeSpectator host rnd cache side rowX rowY z st.draws
    match st.scene with
    | none => { st with draws := st.draws + 9, error := some JsError.typeError }
    | some sc =>
      { scene := some { sprites := sc.sprites + 1 }
        spectators := st.spectators ++ [sprite]
        draws := st.draws + 9
        error := none }

/-- The nominal lateral coordinate `rowX` of row `row` on side `side`. -/
def rowX (currentTrackWidth : ℚ) (side : Int) (row : Nat) : ℚ :=
  let baseX := (side : ℚ) * (currentTrackWidth / 2 + 30 + spectatorOffset)
  baseX + (side : ℚ) * ((row : ℚ) * 12)

/-- The body of the `row` loop. -/
def layoutRow (host : Host) (rnd : Nat → Draw) (cache : TextureCache)
    (currentTrackWidth : ℚ) (side : Int) (st : Layout) (row : Nat) : Layout :=
  let rowY : ℚ := 8
  zGrid.foldl (layoutCell host rnd cache side (rowX currentTrackWidth side row) rowY) st

/-- The body of the `side` loop. -/
def layoutSide (host : Host) (rnd : Nat → Draw) (cache : TextureCache)
    (currentTrackWidth : ℚ) (st : Layout) (side : Int) : Layout :=
  (List.range rows).foldl (layoutRow host rnd cache currentTrackWidth side) st

/-- The clean-up `forEach` at the start of `createSpectators`: every old sprite is
removed from the scene.  The result is the scene afterwards, or the error thrown
by `scene.remove` on a null scene. -/
def removeSpectators (m : Module) : Except JsError (Option Scene) :=
  match m.spectators, m.scene with
  | [], sc => .ok sc
  | _ :: _, none => .error JsError.typeError
  | old, some sc => .ok (some { sprites := sc.sprites - old.length })

/-- The function `createSpectators()`, with the value of `getTrackWidth()` and the
stream of random draws as arguments. -/
def createSpectators (host : Host) (currentTrackWidth : ℚ) (rnd : Nat → Draw)
    (m : Module) : Outcome :=
  match removeSpectators m with
  | .error e => { state := m, error := some e }
  | .ok sc =>
    let textureCache := buildTextureCache.cache
    let final := sideValues.foldl (layoutSide host rnd textureCache currentTrackWidth)
      { scene := sc, spectators := [], draws := 0, error := none }
    { state := { scene := final.scene, spectators := final.spectators }, error := final.error }

/-! ## Animation: `updateSpectators` -/

/-- The value `updateCount = Math.min(100, spectators.length)`. -/
def updateCount (len : Nat) : Nat := min 100 len

/-- The number of low bits of `x` that do not fit in the 53-bit significand of a
double: `x` is halved until it is below `2 ^ 53`, at most `fuel` times. -/
def roundShift : Nat → Nat → Nat
  | 0, _ => 0
  | fuel + 1, x => if x < 2 ^ 53 then 0 else 1 + roundShift fuel (x / 2)

/-- The double nearest to the natural number `x`, ties going to the even
significand (the exponent range of doubles is not modelled, so the value is exact
for `x < 2 ^ 1024`). -/
def roundToDoubleNat (x : Nat) : Nat :=
  let e := roundShift x x
  let q := x / 2 ^ e
  let r := x % 2 ^ e
  if 2 ^ e < 2 * r ∨ (2 * r = 2 ^ e ∧ q % 2 = 1) then (q + 1) * 2 ^ e else q * 2 ^ e

/-- The double nearest to the integer `x`: the result of a JavaScript arithmetic
operation whose exact value is `x`. -/
def roundToDouble : Int → Int
  | Int.ofNat n => (roundToDoubleNat n : Int)
  | Int.negSucc n => -(roundToDoubleNat (n + 1) : Int)

/-- The value `startIdx = (frameCount * updateCount) % spectators.length`; the
product is a double. -/
def startIdx (frameCount : Int) (len : Nat) : Int :=
  jsRem (roundToDouble (frameCount * (updateCount len : Int))) (len : Int)

/-- The value `idx = (startIdx + i) % spectators.length` of iteration `i`. -/
def spectatorIdx (frameCount : Int) (len : Nat) (i : Nat) : Int :=
  jsRem (startIdx frameCount len + (i : Int)) (len : Int)

/-- The indices computed by the loop of one call, in order of the iterations. -/
def windowIndices (frameCount : Int) (len : Nat) : List Int :=
  (List.range (updateCount len)).map (spectatorIdx frameCount len)

/-- The indices computed by `n` calls with the frame counters `f, f + 1, ...`. -/
def cycleIndices (f : Nat) (n : Nat) (len : Nat) : List Int :=
  (List.range n).flatMap (fun k => windowIndices ((f + k : Nat) : Int) len)

/-- Array read `spectators[idx]`; `none` is `undefined`. -/
def spectatorAt (spectators : List Spectator) (idx : Int) : Option Spectator :=
  if idx < 0 then none else spectators[idx.toNat]?

/-- The loop body of `updateSpectators` applied to the sprite `s`: the bounce, and
the pose toggle when the draw `r` is below `0.01`. -/
def visitSpectator (host : Host) (time : ℚ) (r : Draw) (s : Spectator) : Spectator :=
  let bounce := host.sin (time * s.speed + s.phase) * s.amplitude
  let s1 : Spectator := { s with y := s.baseY + max 0 bounce }
  if r.val < 1 / 100 then
    let newArmUp := !s1.armUp
    let texture := cacheGet s1.textureCache (textureKey s1.color newArmUp s1.hair)
    { s1 with armUp := newArmUp, map := texture }
  else s1

/-- State threaded through the loop of `updateSpectators`. -/
structure Tick where
  spectators : List Spectator
  error : Option JsError

/-- Iteration `i` of the loop of `updateSpectators`; reading a field of an
`undefined` sprite throws a `TypeError`. -/
def updateStep (host : Host) (time : ℚ) (rnd : Nat → Draw) (start : Int)
    (st : Tick) (i : Nat) : Tick :=
  if st.error.isSome then st
  else
    let idx := jsRem (start + (i : Int)) (st.spectators.length : Int)
    match spectatorAt st.spectators idx with
    | none => { st with error := some JsError.typeError }
    | some s =>
      { st with spectators := st.spectators.set idx.toNat (visitSpectator host time (rnd i) s) }

/-- The function `updateSpectators(isRacing, frameCount)`, with the reading `now`
of `Date.now()` and the draws of this call as arguments. -/
def updateSpectators (host : Host) (now : Int) (rnd : Nat → Draw)
    (isRacing : Bool) (frameCount : Int) (m : Module) : Outcome :=
  if !isRacing || m.spectators.length == 0 then { state := m, error := none }
  else
    let time : ℚ := (now : ℚ) * (1 / 1000)
    let updateCount := updateCount m.spectators.length
    let startIdx := startIdx frameCount m.spectators.length
    let t := (List.range updateCount).foldl (updateStep host time rnd startIdx)
      { spectators := m.spectators, error := none }
    { state := { m with spectators := t.spectators }, error := t.error }

/-- The registry after the first `n` iterations of the loop of `updateSpectators`
when the start index is the natural number `start`: iteration `i` rewrites the
sprite at `(start + i) % length`. -/
def applyVisits (host : Host) (time : ℚ) (rnd : Nat → Draw) (start : Nat)
    (l : List Spectator) (n : Nat) : List Spectator :=
  (List.range n).foldl
    (fun acc i => List.modify (visitSpectator host time (rnd i)) ((start + i) % l.length) acc) l

/-- All `(color, armUp, hair)` triples over the palette, the two poses and the ten
hairstyles, in the order in which the cache construction meets them. -/
def allTriples : List (String × Bool × Nat) :=
  shirtColors.flatMap (fun c => hairStyles.flatMap (fun h => [(c, true, h), (c, false, h)]))

/-- The module states that calls of the exported functions can produce, starting
from the freshly loaded module. -/
inductive Reachable : Module → Prop where
  | initial : Reachable Module.initial
  | init (sceneRef : Option Scene) (m : Module) :
      Reachable m → Reachable (initSpectators sceneRef m)
  | create (host : Host) (currentTrackWidth : ℚ) (rnd : Nat → Draw) (m : Module) :
      Reachable m → Reachable (createSpectators host currentTrackWidth rnd m).state
  | update (host : Host) (now : Int) (rnd : Nat → Draw) (isRacing : Bool) (frameCount : Int)
      (m : Module) :
      Reachable m → Reachable (updateSpectators host now rnd isRacing frameCount m).state

/-- The texture of the sprite is the entry of its cache under its current key, and
that entry exists. -/
def TextureInCache (s : Spectator) : Prop :=
  s.map = cacheGet s.textureCache (textureKey s.color s.armUp s.hair) ∧ s.map ≠ none

/-- A layout state in which nothing has thrown and the scene is present. -/
def Layout.Running (st : Layout) : Prop := st.error = none ∧ st.scene ≠ none

/-- A running layout state in which every cell so far was filled: nine draws per sprite. -/
def Layout.Full (st : Layout) : Prop := st.Running ∧ st.draws = 9 * st.spectators.length

/-- The sprite is one that the layout can produce: palette colour, listed hairstyle,
the cache built by `createSpectators`, and the texture stored under its key. -/
def Registered (s : Spectator) : Prop :=
  s.color ∈ shirtColors ∧ s.hair ∈ hairStyles ∧ s.textureCache = buildTextureCache.cache ∧
    s.map = cacheGet s.textureCache (textureKey s.color s.armUp s.hair)

/-! ## Frame conditions and provenance -/

/-- The sprites `s` and `t` agree on everything except height, pose and texture. -/
def SameFixed (s t : Spectator) : Prop :=
  t.color = s.color ∧ t.hair = s.hair ∧ t.baseY = s.baseY ∧ t.phase = s.phase ∧
    t.speed = s.speed ∧ t.amplitude = s.amplitude ∧ t.x = s.x ∧ t.z = s.z ∧
    t.rotationY = s.rotationY ∧ t.textureCache = s.textureCache

/-- The sprite was made by the layout for some cell `(side, row, z)` of the grid on a
track of width `T`. -/
def LaidOut (host : Host) (rnd : Nat → Draw) (cache : TextureCache) (T : ℚ)
    (s : Spectator) : Prop :=
  ∃ side, side ∈ sideValues ∧ ∃ row, row < rows ∧ ∃ z, z ∈ zGrid ∧
    ∃ d, s = makeSpectator host rnd cache side (rowX T side row) 8 z d

/-! ## Hoof sound: `playHoofSound` of `sound.js` -/

def HOOF_COOLDOWN : Int := 80

/-- The module variable `lastHoofTime`. -/
structure SoundState where
  lastHoofTime : Int
  deriving DecidableEq, Repr

/-- The state right after loading: `lastHoofTime = 0`. -/
def SoundState.initial : SoundState := { lastHoofTime := 0 }

/-- The function `playHoofSound()` at clock reading `now`: the state it leaves, and
whether the call got past the cooldown check and played the click. -/
def playHoofSound (now : Int) (st : SoundState) : SoundState × Bool :=
  if now - st.lastHoofTime < HOOF_COOLDOWN then (st, false)
  else ({ lastHoofTime := now }, true)

/-- The clock readings of the calls that played a sound, for calls made one after
the other at the readings `times`. -/
def soundTimes : SoundState → List Int → List Int
  | _, [] => []
  | st, now :: rest =>
    if (playHoofSound now st).2 then now :: soundTimes (playHoofSound now st).1 rest
    else soundTimes (playHoofSound now st).1 rest

/-- The state after calls made one after the other at the readings `times`. -/
def hoofState (st : SoundState) (times : List Int) : SoundState :=
  times.foldl (fun acc now => (playHoofSound now acc).1) st

/-! ## Track width: `map.js` -/

def LANE_WIDTH : Int := 30
def MIN_LANES : Int := 8
def MAX_LANES : Int := 20
def ORIGINAL_FINISH_Z : ℚ := -3500

/-- The module variables of `map.js` that the track and finish line functions use;
the object lists are reduced to their lengths. -/
structure MapState where
  scene : Option Scene
  currentTrackWidth : Int
  finishLineZ : ℚ
  trackObjects : Nat
  finishLineObjects : Nat

/-- The state right after loading. -/
def MapState.initial : MapState :=
  { scene := none
    currentTrackWidth := LANE_WIDTH * MIN_LANES
    finishLineZ := ORIGINAL_FINISH_Z
    trackObjects := 0
    finishLineObjects := 0 }

/-- The result of a call of a function of `map.js`. -/
structure MapOutcome where
  state : MapState
  error : Option JsError

/-- The function `initMap(sceneRef)`. -/
def initMap (sceneRef : Option Scene) (m : MapState) : MapState := { m with scene := sceneRef }

/-- The function `getTrackWidth()`. -/
def getTrackWidth (m : MapState) : Int := m.currentTrackWidth

/-- The function `setFinishLineZ(z)`. -/
def setFinishLineZ (z : ℚ) (m : MapState) : MapState := { m with finishLineZ := z }

/-- The function `resetMap()`. -/
def resetMap (m : MapState) : MapState := { m with finishLineZ := ORIGINAL_FINISH_Z }

/-- The function `createTrack(laneCount)`.  The clean-up `forEach` throws on a null
scene when there is an object to remove; after it the width is assigned, and the
first `scene.add` throws on a null scene.  A call that completes leaves the track,
`lanes - 1` lane lines, two borders, two frames, 82 panels and 14 markers. -/
def createTrack (laneCount : Int) (m : MapState) : MapOutcome :=
  if m.trackObjects ≠ 0 ∧ m.scene = none then { state := m, error := some JsError.typeError }
  else
    let lanes := max MIN_LANES (min MAX_LANES laneCount)
    let m1 : MapState := { m with trackObjects := 0, currentTrackWidth := LANE_WIDTH * lanes }
    match m.scene with
    | none => { state := m1, error := some JsError.typeError }
    | some _ =>
      { state := { m1 with trackObjects := 1 + (lanes - 1).toNat + 2 + 2 + 82 + 14 }
        error := none }

/-- The function `moveFinishLine(newZ)`: the new coordinate is stored first, then the
old finish line is removed and five new objects are added. -/
def moveFinishLine (newZ : ℚ) (m : MapState) : MapOutcome :=
  let m0 : MapState := { m with finishLineZ := newZ }
  if m.finishLineObjects ≠ 0 ∧ m.scene = none then
    { state := m0, error := some JsError.typeError }
  else
    match m.scene with
    | none => { state := { m0 with finishLineObjects := 0 }, error := some JsError.typeError }
    | some _ => { state := { m0 with finishLineObjects := 5 }, error := none }

/-- The state after the calls `createTrack(n)` for the `n` of `laneCounts`, in order. -/
def createTracks (laneCounts : List Int) (m : MapState) : MapState :=
  laneCounts.foldl (fun acc n => (createTrack n acc).state) m

/-- The states of `map.js` that calls of the functions above can produce. -/
inductive MapReachable : MapState → Prop where
  | initial : MapReachable MapState.initial
  | initMap (sceneRef : Option Scene) (m : MapState) :
      MapReachable m → MapReachable (initMap sceneRef m)
  | createTrack (laneCount : Int) (m : MapState) :
      MapReachable m → MapReachable (createTrack laneCount m).state
  | setFinishLineZ (z : ℚ) (m : MapState) : MapReachable m → MapReachable (setFinishLineZ z m)
  | moveFinishLine (z : ℚ) (m : MapState) :
      MapReachable m → MapReachable (moveFinishLine z m).state
  | resetMap (m : MapState) : MapReachable m → MapReachable (resetMap m)

/-- The function `createSpectators()` reading the width from the map module. -/
def createSpectatorsOnMap (host : Host) (rnd : Nat → Draw) (map : MapState)
    (m : Module) : Outcome :=
  createSpectators host ((getTrackWidth map : Int) : ℚ) rnd m

/-! ## Concrete inputs -/

/-- A host whose sine is constantly zero. -/
def sampleHost : Host := { PI := 355 / 113, sin := fun _ => 0 }

/-- The draw `0.5`. -/
def halfDraw : Draw := { val := 1 / 2, nonneg := by norm_num, lt_one := by norm_num }

/-- The draw `0`. -/
def zeroDraw : Draw := { val := 0, nonneg := le_refl 0, lt_one := by norm_num }

/-- The sprite laid out at the first cell of the first row on the positive side of
an eight-lane track when every draw is `0.5`. -/
def sampleSpectator : Spectator :=
  makeSpectator sampleHost (fun _ => halfDraw) buildTextureCache.cache 1 220 8 200 0

/-- A module state with a scene and a registry of `n` sprites. -/
def sampleCrowd (n : Nat) : Module :=
  { scene := some { sprites := n }, spectators := List.replicate n sampleSpectator }

/-- The module after `initSpectators(scene)` on a fresh load. -/
def readyModule : Module := initSpectators (some { sprites := 0 }) Module.initial

/-- The sample sprite with an empty texture cache in its `userData`. -/
def strippedSpectator : Spectator := { sampleSpectator with textureCache := [] }

/-- The layout state at the start of the loops, with a scene. -/
def freshLayout : Layout :=
  { scene := some { sprites := 0 }, spectators := [], draws := 0, error := none }

/-! ## Index arithmetic of the update window -/

theorem updateCount_pos {len : Nat} (h : 0 < len) : 0 < updateCount len := by
  unfold updateCount; omega

theorem updateCount_le (len : Nat) : updateCount len ≤ len := by
  unfold updateCount; omega

theorem updateCount_le_hundred (len : Nat) : updateCount len ≤ 100 := by
  unfold updateCount; omega

theorem jsRem_natCast (a b : Nat) : jsRem (a : Int) (b : Int) = ((a % b : Nat) : Int) := by
  unfold jsRem
  exact (Int.ofNat_tmod a b).symm

theorem roundShift_of_lt (fuel x : Nat) (h : x < 2 ^ 53) : roundShift fuel x = 0 := by
  cases fuel with
  | zero => rfl
  | succ n =>
    unfold roundShift
    rw [if_pos h]

/-- An integer below `2 ^ 53` is a double: rounding leaves it as it is. -/
theorem roundToDoubleNat_of_lt (x : Nat) (h : x < 2 ^ 53) : roundToDoubleNat x = x := by
  unfold roundToDoubleNat
  rw [roundShift_of_lt x x h]
  have h1 : x % 2 ^ 0 = 0 := by rw [Nat.pow_zero, Nat.mod_one]
  have h2 : x / 2 ^ 0 = x := by rw [Nat.pow_zero, Nat.div_one]
  simp only [h1, h2]
  rw [if_neg (by simp), Nat.pow_zero, Nat.mul_one]

/-- The fuel suffices: what is left after the shift fits in 53 bits. -/
theorem roundShift_spec (fuel x : Nat) (h : x < 2 ^ fuel) :
    x / 2 ^ roundShift fuel x < 2 ^ 53 := by
  induction fuel generalizing x with
  | zero =>
    have hx : x = 0 := by
      rw [Nat.pow_zero] at h
      omega
    subst hx
    rw [Nat.zero_div]
    exact Nat.two_pow_pos 53
  | succ n ih =>
    unfold roundShift
    split
    · rename_i hlt
      rw [Nat.pow_zero, Nat.div_one]
      exact hlt
    · have hx : x / 2 < 2 ^ n := by
        rw [Nat.div_lt_iff_lt_mul (by decide)]
        rw [Nat.pow_succ] at h
        exact h
      have h2 := ih (x / 2) hx
      rw [Nat.div_div_eq_div_mul] at h2
      rw [Nat.pow_add, Nat.pow_one]
      exact h2

/-- The significand of the rounded value has at most 53 bits before the carry. -/
theorem roundToDoubleNat_significand (x : Nat) : x / 2 ^ roundShift x x < 2 ^ 53 :=
  roundShift_spec x x (Nat.lt_two_pow x)

/-- The rounded value is a multiple of the spacing `2 ^ e` of the doubles around `x`
and lies within half a spacing of `x`. -/
theorem roundToDoubleNat_near (x : Nat) :
    2 ^ roundShift x x ∣ roundToDoubleNat x ∧
    2 * (roundToDoubleNat x - x) ≤ 2 ^ roundShift x x ∧
    2 * (x - roundToDoubleNat x) ≤ 2 ^ roundShift x x := by
  unfold roundToDoubleNat
  have hp : 0 < 2 ^ roundShift x x := Nat.two_pow_pos _
  have hd := Nat.div_add_mod x (2 ^ roundShift x x)
  have hr := Nat.mod_lt x hp
  have hc : x / 2 ^ roundShift x x * 2 ^ roundShift x x
      = 2 ^ roundShift x x * (x / 2 ^ roundShift x x) := Nat.mul_comm _ _
  dsimp only
  split
  · rename_i h
    refine ⟨Nat.dvd_mul_left _ _, ?_, ?_⟩
    · rw [Nat.add_mul, Nat.one_mul, hc]
      rcases h with h | h <;> omega
    · rw [Nat.add_mul, Nat.one_mul, hc]
      omega
  · rename_i h
    have h' : 2 * (x % 2 ^ roundShift x x) ≤ 2 ^ roundShift x x := by
      by_contra hgt
      exact h (Or.inl (by omega))
    refine ⟨Nat.dvd_mul_left _ _, ?_, ?_⟩
    · rw [hc]; omega
    · rw [hc]; omega

theorem roundToDouble_natCast (n : Nat) :
    roundToDouble (n : Int) = (roundToDoubleNat n : Int) := rfl

theorem roundToDouble_neg_natCast (n : Nat) :
    roundToDouble (-(n : Int)) = -(roundToDoubleNat n : Int) := by
  cases n with
  | zero => decide
  | succ k => rfl

theorem startIdx_natCast (f len : Nat) (hsafe : f * updateCount len < 2 ^ 53) :
    startIdx (f : Int) len = (((f * updateCount len) % len : Nat) : Int) := by
  unfold startIdx
  rw [← Nat.cast_mul, roundToDouble_natCast, roundToDoubleNat_of_lt _ hsafe, jsRem_natCast]

theorem spectatorIdx_natCast (f len i : Nat) (hsafe : f * updateCount len < 2 ^ 53) :
    spectatorIdx (f : Int) len i = (((f * updateCount len + i) % len : Nat) : Int) := by
  unfold spectatorIdx
  rw [startIdx_natCast f len hsafe, ← Nat.cast_add, jsRem_natCast, Nat.mod_add_mod]

theorem windowIndices_natCast (f len : Nat) (hsafe : f * updateCount len < 2 ^ 53) :
    windowIndices (f : Int) len =
      (List.range (updateCount len)).map
        (fun i => (((f * updateCount len + i) % len : Nat) : Int)) := by
  unfold windowIndices
  exact List.map_congr_left (fun i _ => spectatorIdx_natCast f len i hsafe)

theorem length_windowIndices (f : Int) (len : Nat) :
    (windowIndices f len).length = updateCount len := by
  simp [windowIndices]

/-- Shifts of a start by less than `len` steps hit distinct residues. -/
theorem add_mod_inj {len s i j : Nat} (hi : i < len) (hj : j < len)
    (h : (s + i) % len = (s + j) % len) : i = j := by
  have h1 : s + i ≡ s + j [MOD len] := h
  have h2 : i ≡ j [MOD len] := Nat.ModEq.add_left_cancel' s h1
  exact Nat.ModEq.eq_of_lt_of_lt h2 hi hj

theorem nodup_windowIndices (f len : Nat) (hsafe : f * updateCount len < 2 ^ 53) :
    (windowIndices (f : Int) len).Nodup := by
  rw [windowIndices_natCast f len hsafe]
  refine List.Nodup.map_on ?_ (List.nodup_range _)
  intro i hi j hj h
  have hi' := List.mem_range.mp hi
  have hj' := List.mem_range.mp hj
  have hw := updateCount_le len
  have h' : (f * updateCount len + i) % len = (f * updateCount len + j) % len := by
    exact_mod_cast h
  exact add_mod_inj (Nat.lt_of_lt_of_le hi' hw) (Nat.lt_of_lt_of_le hj' hw) h'

/-- Starting anywhere, `n` consecutive windows reach every index once `n` windows
are at least as long as the registry. -/
theorem window_cover (len f n j : Nat) (hlen : 0 < len) (hn : len ≤ n * updateCount len)
    (hj : j < len) :
    ∃ k, k < n ∧ ∃ i, i < updateCount len ∧ ((f + k) * updateCount len + i) % len = j := by
  have hW := updateCount_pos hlen
  set W := updateCount len with hWdef
  set a := (f * W) % len with ha
  have ha_lt : a < len := Nat.mod_lt _ hlen
  set t := (j + (len - a)) % len with ht
  have ht_lt : t < len := Nat.mod_lt _ hlen
  refine ⟨t / W, ?_, t % W, Nat.mod_lt _ hW, ?_⟩
  · rw [Nat.div_lt_iff_lt_mul hW]; omega
  · have e1 : (f + t / W) * W + t % W = f * W + t := by
      have := Nat.div_add_mod t W
      rw [Nat.add_mul]
      have h2 : t / W * W = W * (t / W) := Nat.mul_comm _ _
      omega
    rw [e1, Nat.add_mod, Nat.mod_eq_of_lt ht_lt, ← ha, ht, Nat.add_mod_mod]
    have e2 : a + (j + (len - a)) = j + len := by omega
    rw [e2, Nat.add_mod_right, Nat.mod_eq_of_lt hj]

theorem mem_cycleIndices (f n len : Nat) (x : Int) :
    x ∈ cycleIndices f n len ↔ ∃ k, k < n ∧ x ∈ windowIndices ((f + k : Nat) : Int) len := by
  simp [cycleIndices, List.mem_flatMap]

theorem length_cycleIndices (f n len : Nat) :
    (cycleIndices f n len).length = n * updateCount len := by
  induction n with
  | zero => simp [cycleIndices]
  | succ n ih =>
    unfold cycleIndices at ih ⊢
    rw [List.range_succ, List.flatMap_append, List.length_append, ih]
    simp [length_windowIndices, Nat.add_mul]

theorem cycle_cover (len f n j : Nat) (hlen : 0 < len) (hn : len ≤ n * updateCount len)
    (hsafe : (f + n) * updateCount len ≤ 2 ^ 53)
    (hj : j < len) : (j : Int) ∈ cycleIndices f n len := by
  obtain ⟨k, hk, i, hi, h⟩ := window_cover len f n j hlen hn hj
  rw [mem_cycleIndices]
  refine ⟨k, hk, ?_⟩
  have hlt : (f + k) * updateCount len < (f + n) * updateCount len :=
    Nat.mul_lt_mul_of_pos_right (by omega) (updateCount_pos hlen)
  rw [windowIndices_natCast (f + k) len (by omega)]
  exact List.mem_map.mpr ⟨i, List.mem_range.mpr hi, by rw [h]⟩

theorem ceil_mul_ge (len : Nat) (hlen : 0 < len) :
    len ≤ Nat.ceil ((len : ℚ) / (updateCount len : ℚ)) * updateCount len := by
  have hW := updateCount_pos hlen
  have hWq : (0 : ℚ) < (updateCount len : ℚ) := by exact_mod_cast hW
  have h1 : (len : ℚ) / (updateCount len : ℚ) ≤ (Nat.ceil ((len : ℚ) / (updateCount len : ℚ)) : ℚ) :=
    Nat.le_ceil _
  rw [div_le_iff₀ hWq] at h1
  exact_mod_cast h1

/-- Claim C1 (amended). For a registry of size `R ≥ 1`, `W = min(100, R)` and a start
frame `f ≥ 0` with `(f + ceil(R / W)) × W ≤ 2^53`, so that every product
`frameCount × W` of the run is computed exactly, the `ceil(R / W)` calls with the
frame counters `f, f + 1, ...` visit every index `j` in `0..R-1`: some frame `g` of
that run computes `j`. -/
theorem C1_exact_cycle_visits_every_index (R f j : Nat) (hR : 1 ≤ R)
    (hsafe : (f + Nat.ceil ((R : ℚ) / ((min 100 R : Nat) : ℚ))) * min 100 R ≤ 2 ^ 53)
    (hj : j < R) :
    ∃ g, f ≤ g ∧ g < f + Nat.ceil ((R : ℚ) / ((min 100 R : Nat) : ℚ)) ∧
      (j : Int) ∈ windowIndices (g : Int) R := by
  have h := cycle_cover R f _ j hR (ceil_mul_ge R hR) hsafe hj
  rw [mem_cycleIndices] at h
  obtain ⟨k, hk, hmem⟩ := h
  exact ⟨f + k, Nat.le_add_right _ _, Nat.add_lt_add_left hk f, hmem⟩

theorem ceil_250 : Nat.ceil (((250 : Nat) : ℚ) / ((min 100 250 : Nat) : ℚ)) = 3 := by
  rw [Nat.ceil_eq_iff (by decide)]
  have h : ((min 100 250 : Nat) : ℚ) = 100 := by norm_num
  rw [h]
  norm_num

theorem ceil_300 : Nat.ceil (((300 : Nat) : ℚ) / ((min 100 300 : Nat) : ℚ)) = 3 := by
  rw [Nat.ceil_eq_iff (by decide)]
  have h : ((min 100 300 : Nat) : ℚ) = 100 := by norm_num
  rw [h]
  norm_num

theorem C1_exact_cycle_visits_every_index_witness :
    1 ≤ 250 ∧
    (7 + Nat.ceil (((250 : Nat) : ℚ) / ((min 100 250 : Nat) : ℚ))) * min 100 250 ≤ 2 ^ 53 ∧
    249 < 250 ∧
    ∃ g, 7 ≤ g ∧ g < 7 + Nat.ceil (((250 : Nat) : ℚ) / ((min 100 250 : Nat) : ℚ)) ∧
      ((249 : Nat) : Int) ∈ windowIndices (g : Int) 250 :=
  ⟨by decide, by rw [ceil_250]; decide, by decide,
    C1_exact_cycle_visits_every_index 250 7 249 (by decide) (by rw [ceil_250]; decide)
      (by decide)⟩

/-- Claim C1 (counterexample). With 300 sprites and the start frame 360287970189641 the
products `frameCount × 100` exceed `2^53` and are rounded: the three calls of the
run start at 196, 0 and 104, and none of them computes the index 100. -/
theorem C1_rounded_product_counterexample :
    Nat.ceil (((300 : Nat) : ℚ) / ((min 100 300 : Nat) : ℚ)) = 3 ∧
    startIdx 360287970189641 300 = 196 ∧
    startIdx 360287970189642 300 = 0 ∧
    startIdx 360287970189643 300 = 104 ∧
    ¬ ∃ g : Nat, 360287970189641 ≤ g ∧ g < 360287970189641 + 3 ∧
      (100 : Int) ∈ windowIndices (g : Int) 300 := by
  refine ⟨ceil_300, by decide, by decide, by decide, ?_⟩
  rintro ⟨g, h1, h2, h3⟩
  have hg : g = 360287970189641 ∨ g = 360287970189642 ∨ g = 360287970189643 := by omega
  rcases hg with rfl | rfl | rfl
  · exact absurd h3 (by decide)
  · exact absurd h3 (by decide)
  · exact absurd h3 (by decide)

/-- Claim C3 (amended). When the registry size `R ≥ 1` is a multiple of
`W = min(100, R)` and `(f + R / W) × W ≤ 2^53`, so that every product
`frameCount × W` of the run is computed exactly, the `R / W` calls with the frame
counters `f, f + 1, ...` tile the registry exactly: the indices they compute, taken
together, are a permutation of `0..R-1`, so every index is visited exactly once. -/
theorem C3_exact_product_tiling (R f : Nat) (hR : 1 ≤ R) (hdvd : min 100 R ∣ R)
    (hsafe : (f + R / min 100 R) * min 100 R ≤ 2 ^ 53) :
    List.Perm (cycleIndices f (R / min 100 R) R) ((List.range R).map (fun j : Nat => (j : Int))) ∧
    ∀ j : Nat, j < R → (cycleIndices f (R / min 100 R) R).count (j : Int) = 1 := by
  have hlen : (cycleIndices f (R / min 100 R) R).length = R := by
    rw [length_cycleIndices]
    exact Nat.div_mul_cancel hdvd
  have hnd : ((List.range R).map (fun j : Nat => (j : Int))).Nodup :=
    List.Nodup.map_on (fun a _ b _ h => by exact_mod_cast h) (List.nodup_range R)
  have hsub : (List.range R).map (fun j : Nat => (j : Int)) ⊆ cycleIndices f (R / min 100 R) R := by
    intro x hx
    obtain ⟨j, hj, rfl⟩ := List.mem_map.mp hx
    refine cycle_cover R f _ j hR ?_ hsafe (List.mem_range.mp hj)
    exact le_of_eq (Nat.div_mul_cancel hdvd).symm
  have hperm : List.Perm ((List.range R).map (fun j : Nat => (j : Int)))
      (cycleIndices f (R / min 100 R) R) :=
    (List.subperm_of_subset hnd hsub).perm_of_length_le (by simp [hlen])
  refine ⟨hperm.symm, fun j hj => ?_⟩
  rw [hperm.symm.count_eq]
  exact List.count_eq_one_of_mem hnd (List.mem_map.mpr ⟨j, List.mem_range.mpr hj, rfl⟩)

theorem C3_exact_product_tiling_witness :
    1 ≤ 300 ∧ min 100 300 ∣ 300 ∧ (5 + 300 / min 100 300) * min 100 300 ≤ 2 ^ 53 ∧
    List.Perm (cycleIndices 5 (300 / min 100 300) 300)
      ((List.range 300).map (fun j : Nat => (j : Int))) ∧
    ∀ j : Nat, j < 300 → (cycleIndices 5 (300 / min 100 300) 300).count (j : Int) = 1 :=
  ⟨by decide, by decide, by decide,
    C3_exact_product_tiling 300 5 (by decide) (by decide) (by decide)⟩

set_option maxRecDepth 100000 in
/-- Claim C3 (counterexample). With 300 sprites, a multiple of 100, and the start frame
360287970189641 the three windows of a cycle start at 196, 0 and 104: the index 196
is visited twice and the index 100 not at all. -/
theorem C3_rounded_product_counterexample :
    min 100 300 ∣ 300 ∧ 300 / min 100 300 = 3 ∧
    (cycleIndices 360287970189641 (300 / min 100 300) 300).count (196 : Int) = 2 ∧
    (cycleIndices 360287970189641 (300 / min 100 300) 300).count (100 : Int) = 0 := by
  decide

/-! ## The loop of `updateSpectators` -/

theorem set_eq_modify_of_getElem? {α : Type} (f : α → α) (l : List α) (k : Nat) (a : α)
    (h : l[k]? = some a) : l.set k (f a) = List.modify f k l := by
  apply List.ext_getElem?
  intro j
  rw [List.getElem?_set, List.getElem?_modify]
  by_cases hkj : k = j
  · subst hkj
    have hk : k < l.length := by
      rcases Nat.lt_or_ge k l.length with hk | hk
      · exact hk
      · rw [List.getElem?_eq_none hk] at h; cases h
    simp [h, hk]
  · simp [hkj]

theorem spectatorAt_natCast (l : List Spectator) (k : Nat) : spectatorAt l (k : Int) = l[k]? := by
  unfold spectatorAt
  have : ¬ ((k : Int) < 0) := by omega
  simp [this]

theorem length_applyVisits (host : Host) (time : ℚ) (rnd : Nat → Draw) (start : Nat)
    (l : List Spectator) (n : Nat) : (applyVisits host time rnd start l n).length = l.length := by
  induction n with
  | zero => simp [applyVisits]
  | succ n ih =>
    unfold applyVisits at ih ⊢
    rw [List.range_succ, List.foldl_append]
    simp [ih]

theorem applyVisits_succ (host : Host) (time : ℚ) (rnd : Nat → Draw) (start : Nat)
    (l : List Spectator) (n : Nat) :
    applyVisits host time rnd start l (n + 1) =
      List.modify (visitSpectator host time (rnd n)) ((start + n) % l.length)
        (applyVisits host time rnd start l n) := by
  unfold applyVisits
  rw [List.range_succ, List.foldl_append]
  rfl

/-- One iteration from a state without error and a natural start index. -/
theorem updateStep_natCast (host : Host) (time : ℚ) (rnd : Nat → Draw) (start : Nat)
    (acc : List Spectator) (i : Nat) (hacc : 0 < acc.length) :
    updateStep host time rnd (start : Int) { spectators := acc, error := none } i =
      { spectators := List.modify (visitSpectator host time (rnd i)) ((start + i) % acc.length) acc
        error := none } := by
  have hk : (start + i) % acc.length < acc.length := Nat.mod_lt _ hacc
  have hidx : jsRem ((start : Int) + (i : Int)) (acc.length : Int)
      = (((start + i) % acc.length : Nat) : Int) := by
    rw [← Nat.cast_add, jsRem_natCast]
  have hget : acc[(start + i) % acc.length]? = some (acc[(start + i) % acc.length]) :=
    List.getElem?_eq_getElem hk
  simp only [updateStep, Option.isSome_none, Bool.false_eq_true, if_false, hidx,
    spectatorAt_natCast, hget, Int.toNat_ofNat]
  rw [set_eq_modify_of_getElem? _ _ _ _ hget]

theorem foldl_updateStep_natCast (host : Host) (time : ℚ) (rnd : Nat → Draw) (start : Nat)
    (l : List Spectator) (hl : 0 < l.length) (n : Nat) :
    (List.range n).foldl (updateStep host time rnd (start : Int)) { spectators := l, error := none }
      = { spectators := applyVisits host time rnd start l n, error := none } := by
  induction n with
  | zero => simp [applyVisits]
  | succ n ih =>
    rw [List.range_succ, List.foldl_append, ih, applyVisits_succ]
    simp only [List.foldl_cons, List.foldl_nil]
    have hlen := length_applyVisits host time rnd start l n
    rw [updateStep_natCast host time rnd start _ n (by omega), hlen]

theorem updateStep_error (host : Host) (time : ℚ) (rnd : Nat → Draw) (start : Int)
    (st : Tick) (i : Nat) (h : st.error.isSome = true) :
    updateStep host time rnd start st i = st := by
  simp [updateStep, h]

theorem foldl_updateStep_error (host : Host) (time : ℚ) (rnd : Nat → Draw) (start : Int)
    (st : Tick) (h : st.error.isSome = true) (is : List Nat) :
    is.foldl (updateStep host time rnd start) st = st := by
  induction is with
  | nil => rfl
  | cons i is ih => rw [List.foldl_cons, updateStep_error _ _ _ _ _ _ h, ih]

theorem jsRem_neg_natCast (a b : Nat) :
    jsRem (-(a : Int)) (b : Int) = -(((a % b : Nat)) : Int) := by
  cases a with
  | zero => simp [jsRem]
  | succ n => rfl

/-- With a negative start index the first read is out of bounds and throws. -/
theorem foldl_updateStep_neg (host : Host) (time : ℚ) (rnd : Nat → Draw) (start : Int)
    (l : List Spectator) (hneg : start < 0) (hlow : -(l.length : Int) < start) (n : Nat)
    (hn : 0 < n) :
    (List.range n).foldl (updateStep host time rnd start) { spectators := l, error := none }
      = { spectators := l, error := some JsError.typeError } := by
  obtain ⟨k, rfl⟩ : ∃ k, n = k + 1 := ⟨n - 1, by omega⟩
  rw [List.range_succ_eq_map, List.foldl_cons]
  have hidx : jsRem (start + ((0 : Nat) : Int)) (l.length : Int) = start := by
    rw [Nat.cast_zero, add_zero]
    obtain ⟨a, ha⟩ : ∃ a : Nat, start = -(a : Int) := ⟨start.natAbs, by omega⟩
    subst ha
    rw [jsRem_neg_natCast, Nat.mod_eq_of_lt (by omega)]
  have hstep : updateStep host time rnd start { spectators := l, error := none } 0
      = { spectators := l, error := some JsError.typeError } := by
    simp only [updateStep, Option.isSome_none, Bool.false_eq_true, if_false, hidx, spectatorAt,
      hneg, if_true]
  rw [hstep]
  exact foldl_updateStep_error _ _ _ _ _ (by rfl) _

theorem applyVisits_untouched (host : Host) (time : ℚ) (rnd : Nat → Draw) (start : Nat)
    (l : List Spectator) (j : Nat) (n : Nat)
    (h : ∀ i, i < n → (start + i) % l.length ≠ j) :
    (applyVisits host time rnd start l n)[j]? = l[j]? := by
  induction n with
  | zero => simp [applyVisits]
  | succ n ih =>
    rw [applyVisits_succ, List.getElem?_modify_ne _ _ (h n (Nat.lt_succ_self n))]
    exact ih (fun i hi => h i (Nat.lt_succ_of_lt hi))

theorem applyVisits_visited (host : Host) (time : ℚ) (rnd : Nat → Draw) (start : Nat)
    (l : List Spectator) (n : Nat) (hn : n ≤ l.length) (i : Nat) (hi : i < n) :
    (applyVisits host time rnd start l n)[(start + i) % l.length]? =
      (l[(start + i) % l.length]?).map (visitSpectator host time (rnd i)) := by
  induction n with
  | zero => omega
  | succ n ih =>
    rw [applyVisits_succ]
    rcases Nat.lt_or_ge i n with hlt | hge
    · have hne : (start + n) % l.length ≠ (start + i) % l.length := by
        intro heq
        have := add_mod_inj (by omega) (by omega) heq
        omega
      rw [List.getElem?_modify_ne _ _ hne]
      exact ih (by omega) hlt
    · have hin : i = n := by omega
      subst hin
      rw [List.getElem?_modify_eq, applyVisits_untouched]
      · rfl
      · intro i' hi' heq
        have := add_mod_inj (by omega) (by omega) heq
        omega

/-- The start index of a call is either a valid index or negative and above `-length`. -/
theorem startIdx_cases (f : Int) (len : Nat) (hlen : 0 < len) :
    (∃ s : Nat, s < len ∧ startIdx f len = (s : Int)) ∨
      (startIdx f len < 0 ∧ -(len : Int) < startIdx f len) := by
  rcases Int.eq_nat_or_neg f with ⟨n, rfl | rfl⟩
  · refine Or.inl ⟨roundToDoubleNat (n * updateCount len) % len, Nat.mod_lt _ hlen, ?_⟩
    unfold startIdx
    rw [← Nat.cast_mul, roundToDouble_natCast, jsRem_natCast]
  · have h : startIdx (-(n : Int)) len
        = -((roundToDoubleNat (n * updateCount len) % len : Nat) : Int) := by
      unfold startIdx
      rw [neg_mul, ← Nat.cast_mul, roundToDouble_neg_natCast, jsRem_neg_natCast]
    have hlt : roundToDoubleNat (n * updateCount len) % len < len := Nat.mod_lt _ hlen
    rcases Nat.eq_zero_or_pos (roundToDoubleNat (n * updateCount len) % len) with h0 | hpos
    · exact Or.inl ⟨0, hlen, by rw [h, h0]; rfl⟩
    · exact Or.inr ⟨by rw [h]; omega, by rw [h]; omega⟩

/-- For a non-negative frame counter the start index is a valid index, rounded
product or not. -/
theorem startIdx_of_nonneg (f : Int) (hf : 0 ≤ f) (len : Nat) (hlen : 0 < len) :
    ∃ s : Nat, s < len ∧ startIdx f len = (s : Int) := by
  obtain ⟨n, rfl⟩ := Int.eq_ofNat_of_zero_le hf
  refine ⟨roundToDoubleNat (n * updateCount len) % len, Nat.mod_lt _ hlen, ?_⟩
  unfold startIdx
  rw [← Nat.cast_mul, roundToDouble_natCast, jsRem_natCast]

theorem spectatorIdx_of_natStart (f : Int) (len s i : Nat) (hs : startIdx f len = (s : Int)) :
    spectatorIdx f len i = (((s + i) % len : Nat) : Int) := by
  unfold spectatorIdx
  rw [hs, ← Nat.cast_add, jsRem_natCast]

theorem updateSpectators_inactive (host : Host) (now : Int) (rnd : Nat → Draw) (isRacing : Bool)
    (f : Int) (m : Module) (h : isRacing = false ∨ m.spectators.length = 0) :
    updateSpectators host now rnd isRacing f m = { state := m, error := none } := by
  unfold updateSpectators
  rcases h with h | h <;> simp [h]

theorem updateSpectators_of_natStart (host : Host) (now : Int) (rnd : Nat → Draw)
    (f : Int) (m : Module) (hlen : 0 < m.spectators.length) (s : Nat)
    (hs : startIdx f m.spectators.length = (s : Int)) :
    updateSpectators host now rnd true f m =
      { state := { m with spectators := (applyVisits host ((now : ℚ) * (1 / 1000)) rnd s
          m.spectators (updateCount m.spectators.length)) },
        error := none } := by
  have hne : ¬ (m.spectators.length = 0) := by omega
  simp only [updateSpectators, Bool.not_true, Bool.false_or, beq_iff_eq, hne, if_false, hs,
    foldl_updateStep_natCast host _ rnd s m.spectators hlen]

theorem updateSpectators_of_negStart (host : Host) (now : Int) (rnd : Nat → Draw)
    (f : Int) (m : Module) (hlen : 0 < m.spectators.length)
    (hneg : startIdx f m.spectators.length < 0)
    (hlow : -(m.spectators.length : Int) < startIdx f m.spectators.length) :
    updateSpectators host now rnd true f m = { state := m, error := some JsError.typeError } := by
  have hne : ¬ (m.spectators.length = 0) := by omega
  simp only [updateSpectators, Bool.not_true, Bool.false_or, beq_iff_eq, hne, if_false,
    foldl_updateStep_neg host _ rnd _ m.spectators hneg hlow _ (updateCount_pos hlen)]

/-- A call with a non-negative frame counter whose product with the window size is
exact, on a non-empty registry. -/
theorem updateSpectators_natCast (host : Host) (now : Int) (rnd : Nat → Draw)
    (f : Nat) (m : Module) (hlen : 0 < m.spectators.length)
    (hsafe : f * updateCount m.spectators.length < 2 ^ 53) :
    updateSpectators host now rnd true (f : Int) m =
      { state := { m with spectators := (applyVisits host ((now : ℚ) * (1 / 1000)) rnd
          ((f * updateCount m.spectators.length) % m.spectators.length)
          m.spectators (updateCount m.spectators.length)) },
        error := none } :=
  updateSpectators_of_natStart host now rnd f m hlen _ (startIdx_natCast f _ hsafe)

/-! ## What one visit does to a sprite -/

theorem visitSpectator_baseY (host : Host) (time : ℚ) (r : Draw) (s : Spectator) :
    (visitSpectator host time r s).baseY = s.baseY := by
  unfold visitSpectator
  split <;> rfl

theorem visitSpectator_y (host : Host) (time : ℚ) (r : Draw) (s : Spectator) :
    (visitSpectator host time r s).y =
      s.baseY + max 0 (host.sin (time * s.speed + s.phase) * s.amplitude) := by
  unfold visitSpectator
  split <;> rfl

theorem length_sampleCrowd (n : Nat) : (sampleCrowd n).spectators.length = n := by
  simp [sampleCrowd]

/-! ## Claims about the update window -/

/-- Claim C2 (amended). One call `updateSpectators(true, f)` with `f ≥ 0` and
`f × W < 2^53`, `W = min(100, R)`, on a registry of size `R ≥ 1` computes exactly the
indices `((f * W) mod R + i) mod R` for `i` in `0..W-1`; they are pairwise distinct
and at most 100; the call completes, the sprite at each of them is rewritten by one
visit, and every sprite at another index is left as it was. -/
theorem C2_exact_product_window (host : Host) (now : Int) (rnd : Nat → Draw) (f : Nat)
    (m : Module) (hR : 0 < m.spectators.length)
    (hsafe : f * min 100 m.spectators.length < 2 ^ 53) :
    windowIndices (f : Int) m.spectators.length =
      (List.range (min 100 m.spectators.length)).map
        (fun i => ((((f * min 100 m.spectators.length) % m.spectators.length + i)
          % m.spectators.length : Nat) : Int)) ∧
    (windowIndices (f : Int) m.spectators.length).Nodup ∧
    (windowIndices (f : Int) m.spectators.length).length = min 100 m.spectators.length ∧
    (windowIndices (f : Int) m.spectators.length).length ≤ 100 ∧
    (updateSpectators host now rnd true (f : Int) m).error = none ∧
    (∀ i, i < min 100 m.spectators.length →
      (updateSpectators host now rnd true (f : Int) m).state.spectators[
          ((f * min 100 m.spectators.length) % m.spectators.length + i) % m.spectators.length]? =
        (m.spectators[((f * min 100 m.spectators.length) % m.spectators.length + i)
          % m.spectators.length]?).map
          (visitSpectator host ((now : ℚ) * (1 / 1000)) (rnd i))) ∧
    (∀ j : Nat, (j : Int) ∉ windowIndices (f : Int) m.spectators.length →
      (updateSpectators host now rnd true (f : Int) m).state.spectators[j]? = m.spectators[j]?) := by
  have hW : updateCount m.spectators.length = min 100 m.spectators.length := rfl
  have hsafe' : f * updateCount m.spectators.length < 2 ^ 53 := hsafe
  have hwin := windowIndices_natCast f m.spectators.length hsafe'
  simp only [← Nat.mod_add_mod (f * updateCount m.spectators.length)] at hwin
  rw [hW] at hwin
  refine ⟨hwin, nodup_windowIndices f _ hsafe', ?_, ?_, ?_, ?_, ?_⟩
  · rw [length_windowIndices, hW]
  · rw [length_windowIndices]; exact updateCount_le_hundred _
  · rw [updateSpectators_natCast host now rnd f m hR hsafe']
  · intro i hi
    rw [updateSpectators_natCast host now rnd f m hR hsafe']
    exact applyVisits_visited host _ rnd _ m.spectators _ (updateCount_le _) i (by rw [hW]; exact hi)
  · intro j hj
    rw [updateSpectators_natCast host now rnd f m hR hsafe']
    refine applyVisits_untouched host _ rnd _ m.spectators j _ (fun i hi heq => hj ?_)
    rw [hwin]
    exact List.mem_map.mpr ⟨i, List.mem_range.mpr (by rw [← hW]; exact hi), by rw [← hW, heq]⟩

set_option maxRecDepth 100000 in
/-- Claim C2 (counterexample). With 250 sprites and the frame counter 360287970189641
the product `frameCount × 100` is rounded to `2^55 + 128`: the call starts at 96 and
visits 96..195, not the indices 100..199 of the formula. -/
theorem C2_rounded_product_counterexample :
    (360287970189641 * min 100 250) % 250 = 100 ∧
    startIdx 360287970189641 250 = 96 ∧
    windowIndices 360287970189641 250 = (List.range' 96 100).map (fun j : Nat => (j : Int)) ∧
    windowIndices 360287970189641 250 ≠
      (List.range (min 100 250)).map
        (fun i => ((((360287970189641 * min 100 250) % 250 + i) % 250 : Nat) : Int)) := by
  decide

/-- Claim C6. After `updateSpectators(true, f)`, for any integer `f`, clock reading,
draws and registry: either the call threw before visiting any sprite and the state
is unchanged, or it completed and the sprite at every index computed by the loop has
`position.y ≥ userData.baseY`. -/
theorem C6_height_at_least_base (host : Host) (now : Int) (rnd : Nat → Draw) (f : Int)
    (m : Module) :
    ((updateSpectators host now rnd true f m).error = some JsError.typeError ∧
      (updateSpectators host now rnd true f m).state = m) ∨
    ((updateSpectators host now rnd true f m).error = none ∧
      ∀ i, i < updateCount m.spectators.length →
        ∃ j : Nat, spectatorIdx f m.spectators.length i = (j : Int) ∧
          ∃ s, (updateSpectators host now rnd true f m).state.spectators[j]? = some s ∧
            s.baseY ≤ s.y) := by
  rcases Nat.eq_zero_or_pos m.spectators.length with h0 | hpos
  · right
    rw [updateSpectators_inactive host now rnd true f m (Or.inr h0)]
    refine ⟨rfl, fun i hi => ?_⟩
    have := updateCount_le m.spectators.length
    omega
  · rcases startIdx_cases f m.spectators.length hpos with ⟨s, hs, hstart⟩ | ⟨hneg, hlow⟩
    · right
      rw [updateSpectators_of_natStart host now rnd f m hpos s hstart]
      refine ⟨rfl, fun i hi => ?_⟩
      have hk : (s + i) % m.spectators.length < m.spectators.length := Nat.mod_lt _ hpos
      refine ⟨(s + i) % m.spectators.length, ?_, ?_⟩
      · unfold spectatorIdx
        rw [hstart, ← Nat.cast_add, jsRem_natCast]
      · have hv := applyVisits_visited host ((now : ℚ) * (1 / 1000)) rnd s m.spectators _
          (updateCount_le _) i hi
        rw [List.getElem?_eq_getElem hk] at hv
        refine ⟨_, hv, ?_⟩
        rw [visitSpectator_baseY, visitSpectator_y]
        exact le_add_of_nonneg_right (le_max_left _ _)
    · left
      rw [updateSpectators_of_negStart host now rnd f m hpos hneg hlow]
      exact ⟨rfl, rfl⟩

/-- Claim C10 (amended). For every frame counter `f ≥ 0` and every non-empty
registry, each index computed by the loop lies in `0..R-1`, the read of the sprite
succeeds, and the call completes without error. -/
theorem C10_safe_for_nonneg_frames (host : Host) (now : Int) (rnd : Nat → Draw) (f : Int)
    (m : Module) (hf : 0 ≤ f) (hR : 0 < m.spectators.length) :
    (∀ i, i < updateCount m.spectators.length →
      0 ≤ spectatorIdx f m.spectators.length i ∧
      spectatorIdx f m.spectators.length i < (m.spectators.length : Int) ∧
      spectatorAt m.spectators (spectatorIdx f m.spectators.length i) ≠ none) ∧
    (updateSpectators host now rnd true f m).error = none := by
  obtain ⟨s, _, hstart⟩ := startIdx_of_nonneg f hf m.spectators.length hR
  refine ⟨fun i _ => ?_, ?_⟩
  · rw [spectatorIdx_of_natStart f _ s i hstart, spectatorAt_natCast]
    have hk : (s + i) % m.spectators.length < m.spectators.length := Nat.mod_lt _ hR
    refine ⟨by omega, by omega, ?_⟩
    rw [List.getElem?_eq_getElem hk]
    simp
  · rw [updateSpectators_of_natStart host now rnd f m hR s hstart]

theorem C10_safe_for_nonneg_frames_witness :
    (0 : Int) ≤ 7 ∧ 0 < (sampleCrowd 250).spectators.length ∧
    (∀ i, i < updateCount (sampleCrowd 250).spectators.length →
      0 ≤ spectatorIdx 7 (sampleCrowd 250).spectators.length i ∧
      spectatorIdx 7 (sampleCrowd 250).spectators.length i
        < ((sampleCrowd 250).spectators.length : Int) ∧
      spectatorAt (sampleCrowd 250).spectators
        (spectatorIdx 7 (sampleCrowd 250).spectators.length i) ≠ none) ∧
    (updateSpectators sampleHost 0 (fun _ => halfDraw) true 7 (sampleCrowd 250)).error = none :=
  ⟨by decide, by rw [length_sampleCrowd]; decide,
    C10_safe_for_nonneg_frames sampleHost 0 (fun _ => halfDraw) 7 (sampleCrowd 250) (by decide)
      (by rw [length_sampleCrowd]; decide)⟩

/-- Claim C10 (counterexample). With 250 sprites and `frameCount = -1` the first index
computed is `-100`, the read yields `undefined`, and the call throws a `TypeError`. -/
theorem C10_negative_frame_counterexample :
    spectatorIdx (-1) 250 0 = -100 ∧
    spectatorAt (sampleCrowd 250).spectators (spectatorIdx (-1) 250 0) = none ∧
    (updateSpectators sampleHost 0 (fun _ => halfDraw) true (-1) (sampleCrowd 250)).error
      = some JsError.typeError := by
  have h1 : spectatorIdx (-1) 250 0 = -100 := by decide
  have hs : startIdx (-1) (sampleCrowd 250).spectators.length = -100 := by
    rw [length_sampleCrowd]; decide
  refine ⟨h1, ?_, ?_⟩
  · rw [h1]; rfl
  · rw [updateSpectators_of_negStart sampleHost 0 _ (-1) (sampleCrowd 250)
      (by rw [length_sampleCrowd]; decide) (by rw [hs]; decide)
      (by rw [hs, length_sampleCrowd]; decide)]

theorem length_updateSpectators (host : Host) (now : Int) (rnd : Nat → Draw) (isRacing : Bool)
    (f : Int) (m : Module) :
    (updateSpectators host now rnd isRacing f m).state.spectators.length = m.spectators.length := by
  cases isRacing with
  | false => rw [updateSpectators_inactive host now rnd false f m (Or.inl rfl)]
  | true =>
    rcases Nat.eq_zero_or_pos m.spectators.length with h0 | hpos
    · rw [updateSpectators_inactive host now rnd true f m (Or.inr h0)]
    · rcases startIdx_cases f m.spectators.length hpos with ⟨s, _, hstart⟩ | ⟨hneg, hlow⟩
      · rw [updateSpectators_of_natStart host now rnd f m hpos s hstart]
        exact length_applyVisits _ _ _ _ _ _
      · rw [updateSpectators_of_negStart host now rnd f m hpos hneg hlow]

set_option maxRecDepth 100000 in
theorem C2_exact_product_window_witness :
    0 < (sampleCrowd 250).spectators.length ∧
    1 * min 100 (sampleCrowd 250).spectators.length < 2 ^ 53 ∧
    windowIndices 0 250 = (List.range' 0 100).map (fun j : Nat => (j : Int)) ∧
    windowIndices 1 250 = (List.range' 100 100).map (fun j : Nat => (j : Int)) ∧
    ∀ j : Nat, 200 ≤ j → j < 250 →
      (updateSpectators sampleHost 16 (fun _ => zeroDraw) true 1
        (updateSpectators sampleHost 0 (fun _ => zeroDraw) true 0 (sampleCrowd 250)).state
        ).state.spectators[j]? = (sampleCrowd 250).spectators[j]? := by
  have hlen : (sampleCrowd 250).spectators.length = 250 := length_sampleCrowd 250
  have hlen1 : (updateSpectators sampleHost 0 (fun _ => zeroDraw) true 0
      (sampleCrowd 250)).state.spectators.length = 250 := by
    rw [length_updateSpectators, hlen]
  have w0 : windowIndices 0 250 = (List.range' 0 100).map (fun j : Nat => (j : Int)) := by decide
  have w1 : windowIndices 1 250 = (List.range' 100 100).map (fun j : Nat => (j : Int)) := by
    decide
  refine ⟨by rw [hlen]; decide, by rw [hlen]; decide, w0, w1, fun j h200 _ => ?_⟩
  have c0 := (C2_exact_product_window sampleHost 0 (fun _ => zeroDraw) 0 (sampleCrowd 250)
    (by rw [hlen]; decide) (by rw [hlen]; decide)).2.2.2.2.2.2 j
  have c1 := (C2_exact_product_window sampleHost 16 (fun _ => zeroDraw) 1
    (updateSpectators sampleHost 0 (fun _ => zeroDraw) true 0 (sampleCrowd 250)).state
    (by rw [hlen1]; decide) (by rw [hlen1]; decide)).2.2.2.2.2.2 j
  rw [hlen1] at c1
  rw [hlen] at c0
  have c1' := c1 (by
    show ((j : Int)) ∉ windowIndices 1 250
    rw [w1]
    simp only [List.mem_map, List.mem_range', not_exists, not_and]
    intro x ⟨i, _, hx⟩ hxj
    omega)
  have c0' := c0 (by
    show ((j : Int)) ∉ windowIndices 0 250
    rw [w0]
    simp only [List.mem_map, List.mem_range', not_exists, not_and]
    intro x ⟨i, _, hx⟩ hxj
    omega)
  exact c1'.trans c0'

/-! ## The texture cache -/

/-- The cache entry written for a triple. -/
theorem cache_eq : buildTextureCache.cache =
    allTriples.map (fun t => (textureKey t.1 t.2.1 t.2.2, createSpectatorTexture t.1 t.2.1 t.2.2)) := by
  decide!

theorem calls_eq : buildTextureCache.calls = allTriples := by
  decide!

theorem keys_nodup : (allTriples.map (fun t => textureKey t.1 t.2.1 t.2.2)).Nodup := by
  decide!

theorem length_allTriples : allTriples.length = 200 := by
  decide!

theorem mem_allTriples (c : String) (a : Bool) (h : Nat) :
    (c, a, h) ∈ allTriples ↔ c ∈ shirtColors ∧ h ∈ hairStyles := by
  unfold allTriples
  simp only [List.mem_flatMap, List.mem_cons, Prod.mk.injEq, List.mem_singleton]
  constructor
  · rintro ⟨c', hc', h', hh', hmem⟩
    rcases hmem with ⟨rfl, _, rfl⟩ | ⟨rfl, _, rfl⟩ | hfalse
    · exact ⟨hc', hh'⟩
    · exact ⟨hc', hh'⟩
    · cases hfalse
  · rintro ⟨hc, hh⟩
    refine ⟨c, hc, h, hh, ?_⟩
    cases a
    · exact Or.inr (Or.inl ⟨rfl, rfl, rfl⟩)
    · exact Or.inl ⟨rfl, rfl, rfl⟩

/-- In an association list built from a list with pairwise distinct keys, the
lookup of the key of a member returns the value of that member. -/
theorem lookup_map_of_nodup {α : Type} (k : α → String) (v : α → Texture) (l : List α)
    (hnd : (l.map k).Nodup) (t : α) (ht : t ∈ l) :
    List.lookup (k t) (l.map (fun x => (k x, v x))) = some (v t) := by
  induction l with
  | nil => cases ht
  | cons x xs ih =>
    rw [List.map_cons, List.nodup_cons] at hnd
    rw [List.map_cons, List.lookup_cons]
    rcases List.mem_cons.mp ht with rfl | hxs
    · simp
    · have hne : k t ≠ k x := by
        intro heq
        exact hnd.1 (heq ▸ List.mem_map_of_mem k hxs)
      have hb : (k t == k x) = false := by simpa using hne
      rw [hb]
      exact ih hnd.2 hxs

theorem cacheGet_palette (c : String) (a : Bool) (h : Nat) (hc : c ∈ shirtColors)
    (hh : h ∈ hairStyles) :
    cacheGet buildTextureCache.cache (textureKey c a h) = some (createSpectatorTexture c a h) := by
  unfold cacheGet
  rw [cache_eq]
  exact lookup_map_of_nodup (fun t : String × Bool × Nat => textureKey t.1 t.2.1 t.2.2)
    (fun t => createSpectatorTexture t.1 t.2.1 t.2.2) allTriples keys_nodup (c, a, h)
    ((mem_allTriples c a h).mpr ⟨hc, hh⟩)

/-- Claim C4. The cache built in `createSpectators` has exactly 200 entries; the key
template is injective on palette colour × pose × hairstyle; the cache holds for
every such triple exactly one entry, under its key, which is the texture drawn for
that triple; and the log of the calls of `createSpectatorTexture` has 200 entries,
without repetition, one for each triple: the construction takes no input, so this
does not depend on the sprites laid out afterwards. -/
theorem C4_texture_cache_has_200_entries :
    buildTextureCache.cache.length = 200 ∧
    (∀ c a h c' a' h', c ∈ shirtColors → h ∈ hairStyles → c' ∈ shirtColors → h' ∈ hairStyles →
      textureKey c a h = textureKey c' a' h' → c = c' ∧ a = a' ∧ h = h') ∧
    (∀ c a h, c ∈ shirtColors → h ∈ hairStyles →
      cacheGet buildTextureCache.cache (textureKey c a h) = some (createSpectatorTexture c a h) ∧
      (buildTextureCache.cache.map (fun e => e.1)).count (textureKey c a h) = 1) ∧
    buildTextureCache.calls.length = 200 ∧
    buildTextureCache.calls.Nodup ∧
    (∀ c a h, c ∈ shirtColors → h ∈ hairStyles → (c, a, h) ∈ buildTextureCache.calls) ∧
    (∀ t, t ∈ buildTextureCache.calls → t.1 ∈ shirtColors ∧ t.2.2 ∈ hairStyles) := by
  have hkeys : buildTextureCache.cache.map (fun e => e.1)
      = allTriples.map (fun t => textureKey t.1 t.2.1 t.2.2) := by
    rw [cache_eq, List.map_map]; rfl
  refine ⟨?_, ?_, ?_, ?_, ?_, ?_, ?_⟩
  · rw [cache_eq, List.length_map, length_allTriples]
  · intro c a h c' a' h' hc hh hc' hh' heq
    have hinj := List.inj_on_of_nodup_map keys_nodup
      ((mem_allTriples c a h).mpr ⟨hc, hh⟩) ((mem_allTriples c' a' h').mpr ⟨hc', hh'⟩) heq
    simp only [Prod.mk.injEq] at hinj
    exact hinj
  · intro c a h hc hh
    refine ⟨cacheGet_palette c a h hc hh, ?_⟩
    rw [hkeys]
    exact List.count_eq_one_of_mem keys_nodup
      (List.mem_map.mpr ⟨(c, a, h), (mem_allTriples c a h).mpr ⟨hc, hh⟩, rfl⟩)
  · rw [calls_eq, length_allTriples]
  · rw [calls_eq]
    exact List.Nodup.of_map _ keys_nodup
  · intro c a h hc hh
    rw [calls_eq]
    exact (mem_allTriples c a h).mpr ⟨hc, hh⟩
  · rintro ⟨c, a, h⟩ ht
    rw [calls_eq] at ht
    exact (mem_allTriples c a h).mp ht

/-! ## Folds -/

theorem foldl_invariant {σ α : Type} (f : σ → α → σ) (P : σ → Prop)
    (h : ∀ st a, P st → P (f st a)) (l : List α) (st : σ) (hst : P st) : P (l.foldl f st) := by
  induction l generalizing st with
  | nil => exact hst
  | cons a l ih => exact ih (f st a) (h st a hst)

theorem foldl_size_le {σ α : Type} (f : σ → α → σ) (size : σ → Nat) (P : σ → Prop) (b : Nat)
    (h : ∀ st a, P st → P (f st a) ∧ size (f st a) ≤ size st + b) (l : List α) (st : σ)
    (hst : P st) : P (l.foldl f st) ∧ size (l.foldl f st) ≤ size st + b * l.length := by
  induction l generalizing st with
  | nil => exact ⟨hst, by simp⟩
  | cons a l ih =>
    obtain ⟨h1, h2⟩ := h st a hst
    obtain ⟨h3, h4⟩ := ih (f st a) h1
    refine ⟨h3, ?_⟩
    rw [List.foldl_cons, List.length_cons, Nat.mul_succ]
    omega

theorem foldl_size_eq {σ α : Type} (f : σ → α → σ) (size : σ → Nat) (P : σ → Prop) (b N : Nat)
    (h : ∀ st a, P st → size st + b ≤ N → P (f st a) ∧ size (f st a) = size st + b)
    (l : List α) (st : σ) (hst : P st) (hN : size st + b * l.length ≤ N) :
    P (l.foldl f st) ∧ size (l.foldl f st) = size st + b * l.length := by
  induction l generalizing st with
  | nil => exact ⟨hst, by simp⟩
  | cons a l ih =>
    rw [List.length_cons, Nat.mul_succ] at hN
    obtain ⟨h1, h2⟩ := h st a hst (by omega)
    obtain ⟨h3, h4⟩ := ih (f st a) h1 (by omega)
    refine ⟨h3, ?_⟩
    rw [List.foldl_cons, List.length_cons, Nat.mul_succ]
    omega

/-! ## The layout grid -/

set_option maxRecDepth 100000 in
theorem zGrid_eq : zGrid = (List.range 126).map (fun k : Nat => 200 - 35 * (k : Int)) := by
  decide

theorem length_zGrid : zGrid.length = 126 := by
  rw [zGrid_eq]; simp

/-- More fuel does not change the values of a loop that has stopped at its guard. -/
theorem zValues_add_fuel (n k : Nat) (z : Int) (h : (zValues n z).length < n) :
    zValues (n + k) z = zValues n z := by
  induction n generalizing z with
  | zero => simp at h
  | succ n ih =>
    rw [Nat.succ_add]
    unfold zValues
    unfold zValues at h
    split
    · rename_i hz
      rw [if_pos hz, List.length_cons] at h
      rw [ih (z - spacing) (by omega)]
    · rfl

/-- The `z` loop leaves by its guard after 126 iterations, whatever the fuel. -/
theorem zValues_enough_fuel (k : Nat) : zValues ((startZ - endZ).toNat + k) startZ = zGrid := by
  have h : (zValues (startZ - endZ).toNat startZ).length < (startZ - endZ).toNat := by
    show zGrid.length < _
    rw [length_zGrid]; decide
  exact zValues_add_fuel _ k _ h

/-! ## One layout cell -/

theorem layoutCell_error (host : Host) (rnd : Nat → Draw) (cache : TextureCache)
    (side : Int) (rowX rowY : ℚ) (st : Layout) (z : Int) (h : st.error.isSome = true) :
    layoutCell host rnd cache side rowX rowY st z = st := by
  simp [layoutCell, h]

theorem layoutCell_skip (host : Host) (rnd : Nat → Draw) (cache : TextureCache)
    (side : Int) (rowX rowY : ℚ) (st : Layout) (z : Int) (h : st.error = none)
    (hskip : (rnd st.draws).val < 3 / 10) :
    layoutCell host rnd cache side rowX rowY st z = { st with draws := st.draws + 1 } := by
  simp [layoutCell, h, hskip]

theorem layoutCell_fill (host : Host) (rnd : Nat → Draw) (cache : TextureCache)
    (side : Int) (rowX rowY : ℚ) (st : Layout) (z : Int) (sc : Scene) (h : st.error = none)
    (hscene : st.scene = some sc) (hfill : ¬ (rnd st.draws).val < 3 / 10) :
    layoutCell host rnd cache side rowX rowY st z =
      { scene := some { sprites := sc.sprites + 1 },
        spectators := st.spectators ++ [makeSpectator host rnd cache side rowX rowY z st.draws],
        draws := st.draws + 9,
        error := none } := by
  simp [layoutCell, h, hfill, hscene]

theorem layoutCell_null_scene (host : Host) (rnd : Nat → Draw) (cache : TextureCache)
    (side : Int) (rowX rowY : ℚ) (st : Layout) (z : Int) (h : st.error = none)
    (hscene : st.scene = none) (hfill : ¬ (rnd st.draws).val < 3 / 10) :
    layoutCell host rnd cache side rowX rowY st z =
      { st with draws := st.draws + 9, error := some JsError.typeError } := by
  simp [layoutCell, h, hfill, hscene]

/-- Every cell either leaves the registry as it is or appends the sprite made for it. -/
theorem layoutCell_spectators (host : Host) (rnd : Nat → Draw) (cache : TextureCache)
    (side : Int) (rowX rowY : ℚ) (st : Layout) (z : Int) :
    (layoutCell host rnd cache side rowX rowY st z).spectators = st.spectators ∨
    (layoutCell host rnd cache side rowX rowY st z).spectators =
      st.spectators ++ [makeSpectator host rnd cache side rowX rowY z st.draws] := by
  cases herr : st.error with
  | some e => left; rw [layoutCell_error _ _ _ _ _ _ _ _ (by rw [herr]; rfl)]
  | none =>
    by_cases hskip : (rnd st.draws).val < 3 / 10
    · left; rw [layoutCell_skip _ _ _ _ _ _ _ _ herr hskip]
    · cases hscene : st.scene with
      | none => left; rw [layoutCell_null_scene _ _ _ _ _ _ _ _ herr hscene hskip]
      | some sc => right; rw [layoutCell_fill _ _ _ _ _ _ _ _ sc herr hscene hskip]

theorem layoutCell_running (host : Host) (rnd : Nat → Draw) (cache : TextureCache)
    (side : Int) (rowX rowY : ℚ) (st : Layout) (z : Int) (h : st.Running) :
    (layoutCell host rnd cache side rowX rowY st z).Running ∧
    (layoutCell host rnd cache side rowX rowY st z).spectators.length
      ≤ st.spectators.length + 1 := by
  obtain ⟨herr, hscene⟩ := h
  obtain ⟨sc, hsc⟩ := Option.ne_none_iff_exists'.mp hscene
  by_cases hskip : (rnd st.draws).val < 3 / 10
  · rw [layoutCell_skip _ _ _ _ _ _ _ _ herr hskip]
    exact ⟨⟨herr, hscene⟩, Nat.le_succ _⟩
  · rw [layoutCell_fill _ _ _ _ _ _ _ _ sc herr hsc hskip]
    exact ⟨⟨rfl, by simp⟩, by simp⟩

/-! ## The layout loops -/

theorem layoutRow_running (host : Host) (rnd : Nat → Draw) (cache : TextureCache)
    (T : ℚ) (side : Int) (st : Layout) (row : Nat) (h : st.Running) :
    (layoutRow host rnd cache T side st row).Running ∧
    (layoutRow host rnd cache T side st row).spectators.length ≤ st.spectators.length + 126 := by
  have := foldl_size_le (layoutCell host rnd cache side (rowX T side row) 8)
    (fun st => st.spectators.length) Layout.Running 1
    (fun st z hst => layoutCell_running host rnd cache side _ _ st z hst) zGrid st h
  rw [length_zGrid] at this
  exact this

theorem layoutSide_running (host : Host) (rnd : Nat → Draw) (cache : TextureCache)
    (T : ℚ) (st : Layout) (side : Int) (h : st.Running) :
    (layoutSide host rnd cache T st side).Running ∧
    (layoutSide host rnd cache T st side).spectators.length ≤ st.spectators.length + 378 := by
  have := foldl_size_le (layoutRow host rnd cache T side)
    (fun st => st.spectators.length) Layout.Running 126
    (fun st row hst => layoutRow_running host rnd cache T side st row hst) (List.range rows) st h
  rw [List.length_range] at this
  exact this

theorem layout_running (host : Host) (rnd : Nat → Draw) (cache : TextureCache)
    (T : ℚ) (st : Layout) (h : st.Running) :
    (sideValues.foldl (layoutSide host rnd cache T) st).Running ∧
    (sideValues.foldl (layoutSide host rnd cache T) st).spectators.length
      ≤ st.spectators.length + 756 := by
  have := foldl_size_le (layoutSide host rnd cache T)
    (fun st => st.spectators.length) Layout.Running 378
    (fun st side hst => layoutSide_running host rnd cache T st side hst) sideValues st h
  exact this

theorem layoutCell_full (host : Host) (rnd : Nat → Draw) (cache : TextureCache)
    (hfill : ∀ k, k < 756 → ¬ (rnd (9 * k)).val < 3 / 10)
    (side : Int) (rowX rowY : ℚ) (st : Layout) (z : Int) (h : st.Full)
    (hN : st.spectators.length + 1 ≤ 756) :
    (layoutCell host rnd cache side rowX rowY st z).Full ∧
    (layoutCell host rnd cache side rowX rowY st z).spectators.length
      = st.spectators.length + 1 := by
  obtain ⟨⟨herr, hscene⟩, hdraws⟩ := h
  obtain ⟨sc, hsc⟩ := Option.ne_none_iff_exists'.mp hscene
  have hk : ¬ (rnd st.draws).val < 3 / 10 := by
    rw [hdraws]; exact hfill _ (by omega)
  rw [layoutCell_fill _ _ _ _ _ _ _ _ sc herr hsc hk]
  refine ⟨⟨⟨rfl, by simp⟩, ?_⟩, by simp⟩
  simp only [List.length_append, List.length_singleton]
  omega

theorem layoutRow_full (host : Host) (rnd : Nat → Draw) (cache : TextureCache)
    (hfill : ∀ k, k < 756 → ¬ (rnd (9 * k)).val < 3 / 10)
    (T : ℚ) (side : Int) (st : Layout) (row : Nat) (h : st.Full)
    (hN : st.spectators.length + 126 ≤ 756) :
    (layoutRow host rnd cache T side st row).Full ∧
    (layoutRow host rnd cache T side st row).spectators.length = st.spectators.length + 126 := by
  have := foldl_size_eq (layoutCell host rnd cache side (rowX T side row) 8)
    (fun st => st.spectators.length) Layout.Full 1 756
    (fun st z hst hn => layoutCell_full host rnd cache hfill side _ _ st z hst hn) zGrid st h
    (by rw [length_zGrid]; show st.spectators.length + 1 * 126 ≤ 756; omega)
  rw [length_zGrid] at this
  exact this

theorem layoutSide_full (host : Host) (rnd : Nat → Draw) (cache : TextureCache)
    (hfill : ∀ k, k < 756 → ¬ (rnd (9 * k)).val < 3 / 10)
    (T : ℚ) (st : Layout) (side : Int) (h : st.Full)
    (hN : st.spectators.length + 378 ≤ 756) :
    (layoutSide host rnd cache T st side).Full ∧
    (layoutSide host rnd cache T st side).spectators.length = st.spectators.length + 378 := by
  have := foldl_size_eq (layoutRow host rnd cache T side)
    (fun st => st.spectators.length) Layout.Full 126 756
    (fun st row hst hn => layoutRow_full host rnd cache hfill T side st row hst hn)
    (List.range rows) st h
    (by rw [List.length_range]; show st.spectators.length + 126 * 3 ≤ 756; omega)
  rw [List.length_range] at this
  exact this

theorem layout_full (host : Host) (rnd : Nat → Draw) (cache : TextureCache)
    (hfill : ∀ k, k < 756 → ¬ (rnd (9 * k)).val < 3 / 10)
    (T : ℚ) (st : Layout) (h : st.Full) (hN : st.spectators.length = 0) :
    (sideValues.foldl (layoutSide host rnd cache T) st).spectators.length = 756 := by
  have := foldl_size_eq (layoutSide host rnd cache T)
    (fun st => st.spectators.length) Layout.Full 378 756
    (fun st side hst hn => layoutSide_full host rnd cache hfill T st side hst hn)
    sideValues st h (by show st.spectators.length + 378 * 2 ≤ 756; omega)
  have h2 : _ = st.spectators.length + 378 * 2 := this.2
  rw [hN] at h2
  exact h2

theorem removeSpectators_of_scene (m : Module) (h : m.scene ≠ none) :
    ∃ sc, removeSpectators m = Except.ok (some sc) := by
  obtain ⟨sc, hsc⟩ := Option.ne_none_iff_exists'.mp h
  unfold removeSpectators
  rw [hsc]
  cases m.spectators with
  | nil => exact ⟨sc, rfl⟩
  | cons a l => exact ⟨_, rfl⟩

/-- With a scene, `createSpectators` is the layout run from an empty registry. -/
theorem createSpectators_of_scene (host : Host) (T : ℚ) (rnd : Nat → Draw) (m : Module)
    (h : m.scene ≠ none) :
    ∃ sc, createSpectators host T rnd m =
      { state :=
          { scene := (sideValues.foldl (layoutSide host rnd buildTextureCache.cache T)
              { scene := some sc, spectators := [], draws := 0, error := none }).scene,
            spectators := (sideValues.foldl (layoutSide host rnd buildTextureCache.cache T)
              { scene := some sc, spectators := [], draws := 0, error := none }).spectators },
        error := (sideValues.foldl (layoutSide host rnd buildTextureCache.cache T)
              { scene := some sc, spectators := [], draws := 0, error := none }).error } := by
  obtain ⟨sc, hsc⟩ := removeSpectators_of_scene m h
  refine ⟨sc, ?_⟩
  unfold createSpectators
  rw [hsc]

theorem createSpectators_length_le (host : Host) (T : ℚ) (rnd : Nat → Draw) (m : Module)
    (h : m.scene ≠ none) :
    (createSpectators host T rnd m).error = none ∧
    (createSpectators host T rnd m).state.spectators.length ≤ 756 := by
  obtain ⟨sc, hsc⟩ := createSpectators_of_scene host T rnd m h
  rw [hsc]
  dsimp only
  have := layout_running host rnd buildTextureCache.cache T
    { scene := some sc, spectators := [], draws := 0, error := none } ⟨rfl, by simp⟩
  have h2 : _ ≤ 0 + 756 := this.2
  rw [Nat.zero_add] at h2
  exact ⟨this.1.1, h2⟩

theorem createSpectators_length_full (host : Host) (T : ℚ) (rnd : Nat → Draw) (m : Module)
    (h : m.scene ≠ none) (hfill : ∀ k, k < 756 → ¬ (rnd (9 * k)).val < 3 / 10) :
    (createSpectators host T rnd m).state.spectators.length = 756 := by
  obtain ⟨sc, hsc⟩ := createSpectators_of_scene host T rnd m h
  rw [hsc]
  dsimp only
  exact layout_full host rnd buildTextureCache.cache hfill T
    { scene := some sc, spectators := [], draws := 0, error := none }
    ⟨⟨rfl, by simp⟩, rfl⟩ rfl

/-- Claim C7 (amended). The `z` loop yields 126 longitudinal cells per row, so the
layout enumerates `2 × 3 × 126 = 756` candidate cells; once the module has a scene,
`createSpectators` completes with at most 756 sprites in the registry for every
stream of draws, and with exactly 756 when no cell is skipped. -/
theorem C7_layout_has_756_cells (host : Host) (T : ℚ) (rnd : Nat → Draw) (m : Module)
    (hscene : m.scene ≠ none) :
    zGrid.length = 126 ∧
    sideValues.length * rows * zGrid.length = 756 ∧
    (createSpectators host T rnd m).error = none ∧
    (createSpectators host T rnd m).state.spectators.length ≤ 756 ∧
    ((∀ k, k < 756 → ¬ (rnd (9 * k)).val < 3 / 10) →
      (createSpectators host T rnd m).state.spectators.length = 756) := by
  refine ⟨length_zGrid, by rw [length_zGrid]; rfl, (createSpectators_length_le host T rnd m hscene).1,
    (createSpectators_length_le host T rnd m hscene).2,
    createSpectators_length_full host T rnd m hscene⟩

theorem halfDraw_fill : ∀ k, k < 756 → ¬ ((fun _ : Nat => halfDraw) (9 * k)).val < 3 / 10 := by
  intro k _
  show ¬ ((1 : ℚ) / 2 < 3 / 10)
  norm_num

theorem C7_layout_has_756_cells_witness :
    readyModule.scene ≠ none ∧
    zGrid.length = 126 ∧
    sideValues.length * rows * zGrid.length = 756 ∧
    (createSpectators sampleHost 240 (fun _ => halfDraw) readyModule).error = none ∧
    (createSpectators sampleHost 240 (fun _ => halfDraw) readyModule).state.spectators.length
      ≤ 756 ∧
    ((∀ k, k < 756 → ¬ ((fun _ : Nat => halfDraw) (9 * k)).val < 3 / 10) →
      (createSpectators sampleHost 240 (fun _ => halfDraw) readyModule).state.spectators.length
        = 756) :=
  ⟨by simp [readyModule, initSpectators],
    C7_layout_has_756_cells sampleHost 240 (fun _ => halfDraw) readyModule
      (by simp [readyModule, initSpectators])⟩

/-- Claim C7 (counterexample). On an eight-lane track with every draw equal to `0.5`
no cell is skipped and the registry holds 756 sprites, more than 750; each row has
126 cells, not 125. -/
theorem C7_750_cells_counterexample :
    (createSpectators sampleHost 240 (fun _ => halfDraw) readyModule).state.spectators.length
      = 756 ∧
    ¬ ((createSpectators sampleHost 240 (fun _ => halfDraw) readyModule).state.spectators.length
      ≤ 750) ∧
    zGrid.length ≠ 125 := by
  have h := createSpectators_length_full sampleHost 240 (fun _ => halfDraw) readyModule
    (by simp [readyModule, initSpectators]) halfDraw_fill
  refine ⟨h, by rw [h]; decide, by rw [length_zGrid]; decide⟩

/-! ## Lateral placement -/

/-- Claim C8 (amended). For every track width `T`, side `s` and row `r`, the nominal
lateral coordinate of the row is `s × (T/2 + 30 + 70 + 12 × r)`: the first row stands
70 units beyond the ad boards at `T/2 + 30`, that is 100 units beyond the track edge,
and each further row 12 units further out; the sprite of a cell is placed at that
coordinate plus its jitter. -/
theorem C8_row_lateral_coordinate (host : Host) (rnd : Nat → Draw) (cache : TextureCache)
    (T : ℚ) (side : Int) (row : Nat) (rowY : ℚ) (z : Int) (d : Nat) :
    rowX T side row = (side : ℚ) * (T / 2 + 30 + 70 + 12 * (row : ℚ)) ∧
    (makeSpectator host rnd cache side (rowX T side row) rowY z d).x =
      (side : ℚ) * (T / 2 + 30 + 70 + 12 * (row : ℚ)) + ((rnd (d + 1)).val - 1 / 2) * 5 := by
  have h : rowX T side row = (side : ℚ) * (T / 2 + 30 + 70 + 12 * (row : ℚ)) := by
    unfold rowX spectatorOffset
    ring
  refine ⟨h, ?_⟩
  rw [← h]
  rfl

/-- Claim C8 (counterexample). On a track of width 240 the first row of the positive
side stands at `x = 220`, not at `240/2 + 70 = 190`. -/
theorem C8_offset_70_counterexample :
    rowX 240 1 0 = 220 ∧
    rowX 240 1 0 ≠ ((1 : Int) : ℚ) * (240 / 2 + 70 + 12 * ((0 : Nat) : ℚ)) := by
  have h : rowX 240 1 0 = 220 := by
    unfold rowX spectatorOffset
    norm_num
  refine ⟨h, ?_⟩
  rw [h]
  norm_num

/-! ## The texture invariant -/

theorem makeSpectator_fields (host : Host) (rnd : Nat → Draw) (cache : TextureCache)
    (side : Int) (rowX rowY : ℚ) (z : Int) (d : Nat) :
    (makeSpectator host rnd cache side rowX rowY z d).color ∈ shirtColors ∧
    (makeSpectator host rnd cache side rowX rowY z d).hair ∈ hairStyles ∧
    (makeSpectator host rnd cache side rowX rowY z d).textureCache = cache ∧
    (makeSpectator host rnd cache side rowX rowY z d).map =
      cacheGet (makeSpectator host rnd cache side rowX rowY z d).textureCache
        (textureKey (makeSpectator host rnd cache side rowX rowY z d).color
          (makeSpectator host rnd cache side rowX rowY z d).armUp
          (makeSpectator host rnd cache side rowX rowY z d).hair) :=
  ⟨List.get_mem _ _ _, List.get_mem _ _ _, rfl, rfl⟩

theorem makeSpectator_registered (host : Host) (rnd : Nat → Draw) (side : Int)
    (rowX rowY : ℚ) (z : Int) (d : Nat) :
    Registered (makeSpectator host rnd buildTextureCache.cache side rowX rowY z d) :=
  makeSpectator_fields host rnd buildTextureCache.cache side rowX rowY z d

theorem visitSpectator_registered (host : Host) (time : ℚ) (r : Draw) (s : Spectator)
    (h : Registered s) : Registered (visitSpectator host time r s) := by
  obtain ⟨hc, hh, hcache, hmap⟩ := h
  unfold visitSpectator
  split
  · exact ⟨hc, hh, hcache, rfl⟩
  · exact ⟨hc, hh, hcache, hmap⟩

theorem Registered.textureInCache {s : Spectator} (h : Registered s) : TextureInCache s := by
  obtain ⟨hc, hh, hcache, hmap⟩ := h
  refine ⟨hmap, ?_⟩
  rw [hmap, hcache, cacheGet_palette _ _ _ hc hh]
  simp

theorem layoutCell_registered (host : Host) (rnd : Nat → Draw) (side : Int) (rowX rowY : ℚ)
    (st : Layout) (z : Int) (h : ∀ s ∈ st.spectators, Registered s) :
    ∀ s ∈ (layoutCell host rnd buildTextureCache.cache side rowX rowY st z).spectators,
      Registered s := by
  rcases layoutCell_spectators host rnd buildTextureCache.cache side rowX rowY st z with he | he
  · rw [he]; exact h
  · rw [he]
    intro s hs
    rcases List.mem_append.mp hs with h1 | h1
    · exact h s h1
    · rw [List.mem_singleton] at h1
      rw [h1]
      exact makeSpectator_registered _ _ _ _ _ _ _

theorem layout_registered (host : Host) (rnd : Nat → Draw) (T : ℚ) (st : Layout)
    (h : ∀ s ∈ st.spectators, Registered s) :
    ∀ s ∈ (sideValues.foldl (layoutSide host rnd buildTextureCache.cache T) st).spectators,
      Registered s := by
  refine foldl_invariant _ (fun st : Layout => ∀ s ∈ st.spectators, Registered s) ?_ _ st h
  intro st side hst
  refine foldl_invariant _ (fun st : Layout => ∀ s ∈ st.spectators, Registered s) ?_ _ st hst
  intro st row hst
  refine foldl_invariant _ (fun st : Layout => ∀ s ∈ st.spectators, Registered s) ?_ _ st hst
  intro st z hst
  exact layoutCell_registered host rnd side _ _ st z hst

theorem createSpectators_registered (host : Host) (T : ℚ) (rnd : Nat → Draw) (m : Module)
    (h : ∀ s ∈ m.spectators, Registered s) :
    ∀ s ∈ (createSpectators host T rnd m).state.spectators, Registered s := by
  unfold createSpectators
  cases removeSpectators m with
  | error e => exact h
  | ok sc =>
    dsimp only
    exact layout_registered host rnd T _ (fun s hs => by cases hs)

theorem forall_mem_modify {α : Type} (P : α → Prop) (f : α → α) (hf : ∀ a, P a → P (f a))
    (k : Nat) (l : List α) (h : ∀ a ∈ l, P a) : ∀ a ∈ List.modify f k l, P a := by
  intro a ha
  obtain ⟨j, hj, rfl⟩ := List.getElem_of_mem ha
  rw [List.getElem_modify]
  split
  · exact hf _ (h _ (List.getElem_mem _))
  · exact h _ (List.getElem_mem _)

theorem applyVisits_registered (host : Host) (time : ℚ) (rnd : Nat → Draw) (start : Nat)
    (l : List Spectator) (n : Nat) (h : ∀ s ∈ l, Registered s) :
    ∀ s ∈ applyVisits host time rnd start l n, Registered s := by
  induction n with
  | zero => simpa [applyVisits] using h
  | succ n ih =>
    rw [applyVisits_succ]
    exact forall_mem_modify Registered _ (fun a ha => visitSpectator_registered _ _ _ a ha) _ _ ih

theorem updateSpectators_registered (host : Host) (now : Int) (rnd : Nat → Draw)
    (isRacing : Bool) (f : Int) (m : Module) (h : ∀ s ∈ m.spectators, Registered s) :
    ∀ s ∈ (updateSpectators host now rnd isRacing f m).state.spectators, Registered s := by
  cases isRacing with
  | false => rw [updateSpectators_inactive host now rnd false f m (Or.inl rfl)]; exact h
  | true =>
    rcases Nat.eq_zero_or_pos m.spectators.length with h0 | hpos
    · rw [updateSpectators_inactive host now rnd true f m (Or.inr h0)]; exact h
    · rcases startIdx_cases f m.spectators.length hpos with ⟨s, _, hstart⟩ | ⟨hneg, hlow⟩
      · rw [updateSpectators_of_natStart host now rnd f m hpos s hstart]
        exact applyVisits_registered _ _ _ _ _ _ h
      · rw [updateSpectators_of_negStart host now rnd f m hpos hneg hlow]; exact h

theorem reachable_registered (m : Module) (h : Reachable m) :
    ∀ s ∈ m.spectators, Registered s := by
  induction h with
  | initial => intro s hs; cases hs
  | init sceneRef m _ ih => exact ih
  | create host T rnd m _ ih => exact createSpectators_registered host T rnd m ih
  | update host now rnd isRacing f m _ ih =>
    exact updateSpectators_registered host now rnd isRacing f m ih

/-- Claim C5. In every module state reached from the fresh module by calls of
`initSpectators`, `createSpectators` and `updateSpectators` (any arguments, clock
readings and draws), the texture of every sprite of the registry is the entry of its
cache under its current `(color, armUp, hair)` key, and that entry exists.  A visit
whose draw is below `0.01` flips `armUp` and installs the entry of the new key,
which exists as well. -/
theorem C5_texture_matches_key (m : Module) (h : Reachable m) :
    (∀ s ∈ m.spectators, TextureInCache s) ∧
    (∀ s ∈ m.spectators, ∀ (host : Host) (time : ℚ) (r : Draw), r.val < 1 / 100 →
      (visitSpectator host time r s).armUp = !s.armUp ∧
      (visitSpectator host time r s).map =
        cacheGet s.textureCache (textureKey s.color (!s.armUp) s.hair) ∧
      (visitSpectator host time r s).map ≠ none ∧
      TextureInCache (visitSpectator host time r s)) := by
  have hreg := reachable_registered m h
  refine ⟨fun s hs => (hreg s hs).textureInCache, fun s hs host time r hr => ?_⟩
  have hv := (visitSpectator_registered host time r s (hreg s hs)).textureInCache
  have harm : (visitSpectator host time r s).armUp = !s.armUp := by
    unfold visitSpectator
    rw [if_pos hr]
  have hmap : (visitSpectator host time r s).map =
      cacheGet s.textureCache (textureKey s.color (!s.armUp) s.hair) := by
    unfold visitSpectator
    rw [if_pos hr]
  exact ⟨harm, hmap, hv.2, hv⟩

theorem readyModule_scene : readyModule.scene ≠ none := by
  simp [readyModule, initSpectators]

/-- An eight-lane crowd laid out with every draw `0.5`, after one animation frame,
is reachable and has 756 sprites. -/
theorem raced_reachable :
    Reachable (updateSpectators sampleHost 16 (fun _ => zeroDraw) true 0
      (createSpectators sampleHost 240 (fun _ => halfDraw) readyModule).state).state :=
  Reachable.update _ _ _ _ _ _
    (Reachable.create _ _ _ _ (Reachable.init _ _ Reachable.initial))

theorem raced_length :
    (updateSpectators sampleHost 16 (fun _ => zeroDraw) true 0
      (createSpectators sampleHost 240 (fun _ => halfDraw) readyModule).state).state.spectators.length = 756 := by
  rw [length_updateSpectators]
  exact createSpectators_length_full sampleHost 240 (fun _ => halfDraw) readyModule
    readyModule_scene halfDraw_fill

theorem C5_texture_matches_key_witness :
    Reachable (updateSpectators sampleHost 16 (fun _ => zeroDraw) true 0
      (createSpectators sampleHost 240 (fun _ => halfDraw) readyModule).state).state ∧
    (updateSpectators sampleHost 16 (fun _ => zeroDraw) true 0
      (createSpectators sampleHost 240 (fun _ => halfDraw) readyModule).state).state.spectators.length = 756 ∧
    (∀ s ∈ (updateSpectators sampleHost 16 (fun _ => zeroDraw) true 0
      (createSpectators sampleHost 240 (fun _ => halfDraw) readyModule).state).state.spectators, TextureInCache s) ∧
    (∀ s ∈ (updateSpectators sampleHost 16 (fun _ => zeroDraw) true 0
      (createSpectators sampleHost 240 (fun _ => halfDraw) readyModule).state).state.spectators,
      ∀ (host : Host) (time : ℚ) (r : Draw), r.val < 1 / 100 →
      (visitSpectator host time r s).armUp = !s.armUp ∧
      (visitSpectator host time r s).map =
        cacheGet s.textureCache (textureKey s.color (!s.armUp) s.hair) ∧
      (visitSpectator host time r s).map ≠ none ∧
      TextureInCache (visitSpectator host time r s)) :=
  ⟨raced_reachable, raced_length, C5_texture_matches_key _ raced_reachable⟩

/-! ## Lookups that miss -/

theorem visitSpectator_toggle (host : Host) (time : ℚ) (r : Draw) (s : Spectator)
    (hr : r.val < 1 / 100) :
    (visitSpectator host time r s).armUp = (!s.armUp) ∧
    (visitSpectator host time r s).map =
      cacheGet s.textureCache (textureKey s.color (!s.armUp) s.hair) := by
  unfold visitSpectator
  rw [if_pos hr]
  exact ⟨rfl, rfl⟩

/-- Claim C9 (amended). A lookup of a key that is not in the cache yields `undefined`
and the operation goes on without error.  In the layout the sprite of a filled cell
is still created, with no texture, and appended to the registry; in a pose toggle
`armUp` flips and the texture reference becomes `undefined`; and a call of
`updateSpectators` with a non-negative frame counter completes whatever the caches
of the sprites hold. -/
theorem C9_cache_miss_is_silent (host : Host) (rnd : Nat → Draw) (cache : TextureCache)
    (side : Int) (rowX rowY : ℚ) (st : Layout) (z : Int) (sc : Scene)
    (herr : st.error = none) (hscene : st.scene = some sc)
    (hfill : ¬ (rnd st.draws).val < 3 / 10)
    (hmiss : cacheGet cache
      (textureKey (makeSpectator host rnd cache side rowX rowY z st.draws).color
        (makeSpectator host rnd cache side rowX rowY z st.draws).armUp
        (makeSpectator host rnd cache side rowX rowY z st.draws).hair) = none) :
    (layoutCell host rnd cache side rowX rowY st z).error = none ∧
    (layoutCell host rnd cache side rowX rowY st z).spectators =
      st.spectators ++ [makeSpectator host rnd cache side rowX rowY z st.draws] ∧
    (makeSpectator host rnd cache side rowX rowY z st.draws).map = none ∧
    (∀ (time : ℚ) (r : Draw) (s : Spectator), r.val < 1 / 100 →
      cacheGet s.textureCache (textureKey s.color (!s.armUp) s.hair) = none →
      (visitSpectator host time r s).armUp = (!s.armUp) ∧
      (visitSpectator host time r s).map = none) ∧
    (∀ (now : Int) (draws : Nat → Draw) (f : Nat) (m : Module), 0 < m.spectators.length →
      (updateSpectators host now draws true (f : Int) m).error = none ∧
      (updateSpectators host now draws true (f : Int) m).state.spectators.length
        = m.spectators.length) := by
  have hfields := makeSpectator_fields host rnd cache side rowX rowY z st.draws
  refine ⟨?_, ?_, ?_, ?_, ?_⟩
  · rw [layoutCell_fill _ _ _ _ _ _ _ _ sc herr hscene hfill]
  · rw [layoutCell_fill _ _ _ _ _ _ _ _ sc herr hscene hfill]
  · rw [hfields.2.2.2, hfields.2.2.1]
    exact hmiss
  · intro time r s hr hs
    obtain ⟨h1, h2⟩ := visitSpectator_toggle host time r s hr
    exact ⟨h1, h2.trans hs⟩
  · intro now draws f m hm
    refine ⟨?_, length_updateSpectators _ _ _ _ _ _⟩
    obtain ⟨s, _, hstart⟩ := startIdx_of_nonneg (f : Int) (Int.ofNat_nonneg f) _ hm
    rw [updateSpectators_of_natStart host now draws f m hm s hstart]

theorem halfDraw_not_skip : ¬ ((fun _ : Nat => halfDraw) freshLayout.draws).val < 3 / 10 := by
  show ¬ ((1 : ℚ) / 2 < 3 / 10)
  norm_num

theorem zeroDraw_toggles : zeroDraw.val < 1 / 100 := by
  show (0 : ℚ) < 1 / 100
  norm_num

theorem C9_cache_miss_is_silent_witness :
    freshLayout.error = none ∧ freshLayout.scene = some { sprites := 0 } ∧
    ¬ ((fun _ : Nat => halfDraw) freshLayout.draws).val < 3 / 10 ∧
    (layoutCell sampleHost (fun _ => halfDraw) [] 1 220 8 freshLayout 200).error = none ∧
    (layoutCell sampleHost (fun _ => halfDraw) [] 1 220 8 freshLayout 200).spectators =
      freshLayout.spectators ++
        [makeSpectator sampleHost (fun _ => halfDraw) [] 1 220 8 200 freshLayout.draws] ∧
    (makeSpectator sampleHost (fun _ => halfDraw) [] 1 220 8 200 freshLayout.draws).map = none :=
  ⟨rfl, rfl, halfDraw_not_skip,
    (C9_cache_miss_is_silent sampleHost (fun _ => halfDraw) [] 1 220 8 freshLayout 200
      { sprites := 0 } rfl rfl halfDraw_not_skip rfl).1,
    (C9_cache_miss_is_silent sampleHost (fun _ => halfDraw) [] 1 220 8 freshLayout 200
      { sprites := 0 } rfl rfl halfDraw_not_skip rfl).2.1,
    (C9_cache_miss_is_silent sampleHost (fun _ => halfDraw) [] 1 220 8 freshLayout 200
      { sprites := 0 } rfl rfl halfDraw_not_skip rfl).2.2.1⟩

/-- Claim C9 (counterexample). Laying out a cell against an empty cache raises no
error and adds a sprite without texture to the registry; a pose toggle on a sprite
whose cache is empty raises no error either and leaves the sprite in the registry
with `armUp` flipped and an `undefined` texture. -/
theorem C9_cache_miss_counterexample :
    (layoutCell sampleHost (fun _ => halfDraw) [] 1 220 8 freshLayout 200).error = none ∧
    ((layoutCell sampleHost (fun _ => halfDraw) [] 1 220 8 freshLayout 200).spectators.map
      (fun s => s.map)) = [none] ∧
    (updateSpectators sampleHost 0 (fun _ => zeroDraw) true 0
      { scene := some { sprites := 1 }, spectators := [strippedSpectator] }).error = none ∧
    ((updateSpectators sampleHost 0 (fun _ => zeroDraw) true 0
      { scene := some { sprites := 1 }, spectators := [strippedSpectator] }).state.spectators.map
      (fun s => (s.map, s.armUp))) = [(none, !strippedSpectator.armUp)] := by
  have hcell := layoutCell_fill sampleHost (fun _ => halfDraw) [] 1 220 8 freshLayout 200
    { sprites := 0 } rfl rfl halfDraw_not_skip
  have hupd := updateSpectators_of_natStart sampleHost 0 (fun _ => zeroDraw) 0
    { scene := some { sprites := 1 }, spectators := [strippedSpectator] } (by simp) 0
    (by decide)
  have happly : applyVisits sampleHost (((0 : Int) : ℚ) * (1 / 1000)) (fun _ => zeroDraw)
      0 [strippedSpectator] (updateCount 1)
      = [visitSpectator sampleHost (((0 : Int) : ℚ) * (1 / 1000)) zeroDraw strippedSpectator] := by
    rfl
  obtain ⟨h1, h2⟩ := visitSpectator_toggle sampleHost (((0 : Int) : ℚ) * (1 / 1000)) zeroDraw
    strippedSpectator zeroDraw_toggles
  have h3 : cacheGet strippedSpectator.textureCache
      (textureKey strippedSpectator.color (!strippedSpectator.armUp) strippedSpectator.hair)
      = none := rfl
  refine ⟨by rw [hcell], ?_, ?_, ?_⟩
  · rw [hcell]
    rfl
  · rw [hupd]
  · rw [hupd]
    show List.map _ (applyVisits sampleHost (((0 : Int) : ℚ) * (1 / 1000)) (fun _ => zeroDraw)
      0 [strippedSpectator] (updateCount 1)) = _
    rw [happly, List.map_cons, List.map_nil, h1, h2, h3]

/-! ## Frame condition of `updateSpectators` -/

theorem SameFixed.refl (s : Spectator) : SameFixed s s :=
  ⟨rfl, rfl, rfl, rfl, rfl, rfl, rfl, rfl, rfl, rfl⟩

theorem visitSpectator_sameFixed (host : Host) (time : ℚ) (r : Draw) (s : Spectator) :
    SameFixed s (visitSpectator host time r s) := by
  unfold visitSpectator
  split <;> exact ⟨rfl, rfl, rfl, rfl, rfl, rfl, rfl, rfl, rfl, rfl⟩

/-- Within one call every index is either untouched or rewritten by exactly one visit. -/
theorem applyVisits_getElem? (host : Host) (time : ℚ) (rnd : Nat → Draw) (start : Nat)
    (l : List Spectator) (n : Nat) (hn : n ≤ l.length) (j : Nat) :
    (applyVisits host time rnd start l n)[j]? = l[j]? ∨
    ∃ i, i < n ∧ (start + i) % l.length = j ∧
      (applyVisits host time rnd start l n)[j]? = (l[j]?).map (visitSpectator host time (rnd i)) := by
  by_cases h : ∃ i, i < n ∧ (start + i) % l.length = j
  · obtain ⟨i, hi, hij⟩ := h
    right
    refine ⟨i, hi, hij, ?_⟩
    rw [← hij]
    exact applyVisits_visited host time rnd start l n hn i hi
  · left
    exact applyVisits_untouched host time rnd start l j n
      (fun i hi heq => h ⟨i, hi, heq⟩)

theorem windowIndices_of_natStart (f : Int) (len s : Nat) (hs : startIdx f len = (s : Int)) :
    windowIndices f len =
      (List.range (updateCount len)).map (fun i => (((s + i) % len : Nat) : Int)) := by
  unfold windowIndices
  refine List.map_congr_left (fun i _ => ?_)
  unfold spectatorIdx
  rw [hs, ← Nat.cast_add, jsRem_natCast]

/-- Claim C11. Frame condition of `updateSpectators(isRacing, f)`, for every integer
`f`, clock reading and draws.  When `isRacing` is false or the registry is empty the
state is unchanged and nothing is thrown.  In every case the scene reference and
the length of the registry are unchanged, the sprite at every index outside the
window of the frame is unchanged, and the sprite at every index keeps its colour,
hairstyle, base height, phase, speed, amplitude, `x`, `z`, facing and cache: only
`position.y`, `armUp` and the texture may differ. -/
theorem C11_frame_condition (host : Host) (now : Int) (rnd : Nat → Draw) (isRacing : Bool)
    (f : Int) (m : Module) :
    ((isRacing = false ∨ m.spectators = []) →
      (updateSpectators host now rnd isRacing f m).state = m ∧
      (updateSpectators host now rnd isRacing f m).error = none) ∧
    (updateSpectators host now rnd isRacing f m).state.scene = m.scene ∧
    (updateSpectators host now rnd isRacing f m).state.spectators.length = m.spectators.length ∧
    (∀ j : Nat, (j : Int) ∉ windowIndices f m.spectators.length →
      (updateSpectators host now rnd isRacing f m).state.spectators[j]? = m.spectators[j]?) ∧
    (∀ (j : Nat) (s : Spectator), m.spectators[j]? = some s →
      ∃ t, (updateSpectators host now rnd isRacing f m).state.spectators[j]? = some t ∧
        SameFixed s t) := by
  have hnoop : (isRacing = false ∨ m.spectators.length = 0) →
      updateSpectators host now rnd isRacing f m = { state := m, error := none } :=
    updateSpectators_inactive host now rnd isRacing f m
  refine ⟨?_, ?_⟩
  · intro h
    have h' : isRacing = false ∨ m.spectators.length = 0 := by
      rcases h with h | h
      · exact Or.inl h
      · exact Or.inr (by rw [h]; rfl)
    rw [hnoop h']
    exact ⟨rfl, rfl⟩
  · by_cases hin : isRacing = false ∨ m.spectators.length = 0
    · rw [hnoop hin]
      exact ⟨rfl, rfl, fun _ _ => rfl, fun j s hs => ⟨s, hs, SameFixed.refl s⟩⟩
    · have hr : isRacing = true := by
        cases isRacing
        · exact absurd (Or.inl rfl) hin
        · rfl
      have hpos : 0 < m.spectators.length := by
        rcases Nat.eq_zero_or_pos m.spectators.length with h0 | hp
        · exact absurd (Or.inr h0) hin
        · exact hp
      subst hr
      rcases startIdx_cases f m.spectators.length hpos with ⟨s, _, hstart⟩ | ⟨hneg, hlow⟩
      · rw [updateSpectators_of_natStart host now rnd f m hpos s hstart]
        refine ⟨rfl, length_applyVisits _ _ _ _ _ _, ?_, ?_⟩
        · intro j hj
          refine applyVisits_untouched host _ rnd s m.spectators j _ (fun i hi heq => hj ?_)
          rw [windowIndices_of_natStart f _ s hstart]
          exact List.mem_map.mpr ⟨i, List.mem_range.mpr hi, by rw [heq]⟩
        · intro j sp hsp
          rcases applyVisits_getElem? host ((now : ℚ) * (1 / 1000)) rnd s m.spectators _
            (updateCount_le _) j with h | ⟨i, _, _, h⟩
          · exact ⟨sp, h.trans hsp, SameFixed.refl sp⟩
          · refine ⟨visitSpectator host ((now : ℚ) * (1 / 1000)) (rnd i) sp, ?_,
              visitSpectator_sameFixed _ _ _ _⟩
            show (applyVisits host ((now : ℚ) * (1 / 1000)) rnd s m.spectators
              (updateCount m.spectators.length))[j]? = _
            rw [h, hsp]
            rfl
      · rw [updateSpectators_of_negStart host now rnd f m hpos hneg hlow]
        exact ⟨rfl, rfl, fun _ _ => rfl, fun j s hs => ⟨s, hs, SameFixed.refl s⟩⟩

/-! ## Heights depend on the clock only -/

theorem max_zero_bounce_congr (host : Host) (time : ℚ) (s t : Spectator) (h : SameFixed s t) :
    t.baseY + max 0 (host.sin (time * t.speed + t.phase) * t.amplitude) =
      s.baseY + max 0 (host.sin (time * s.speed + s.phase) * s.amplitude) := by
  obtain ⟨_, _, hb, hp, hs, ha, _⟩ := h
  rw [hb, hp, hs, ha]

/-- The height written by a visit is the same whatever the sprite went through
before, as long as its fixed fields are the same. -/
theorem visitSpectator_y_congr (host : Host) (time : ℚ) (r1 r2 : Draw) (s t : Spectator)
    (h : SameFixed s t) :
    (visitSpectator host time r2 t).y = (visitSpectator host time r1 s).y := by
  rw [visitSpectator_y, visitSpectator_y]
  exact max_zero_bounce_congr host time s t h

/-- Without a toggle, a second visit at the same clock reading changes nothing. -/
theorem visitSpectator_idem (host : Host) (time : ℚ) (r1 r2 : Draw) (s : Spectator)
    (h2 : ¬ r2.val < 1 / 100) :
    visitSpectator host time r2 (visitSpectator host time r1 s) = visitSpectator host time r1 s := by
  have hy := visitSpectator_y_congr host time r1 r2 s _ (visitSpectator_sameFixed host time r1 s)
  have hform : ∀ t : Spectator, visitSpectator host time r2 t =
      { t with y := (visitSpectator host time r2 t).y } := by
    intro t
    unfold visitSpectator
    rw [if_neg h2]
  rw [hform, hy]

theorem applyVisits_twice_y (host : Host) (time : ℚ) (rnd1 rnd2 : Nat → Draw) (start : Nat)
    (l : List Spectator) (n : Nat) (hn : n ≤ l.length) (j : Nat) :
    ((applyVisits host time rnd2 start (applyVisits host time rnd1 start l n) n)[j]?).map
        (fun s => s.y) =
      ((applyVisits host time rnd1 start l n)[j]?).map (fun s => s.y) := by
  have hlen := length_applyVisits host time rnd1 start l n
  by_cases h : ∃ i, i < n ∧ (start + i) % l.length = j
  · obtain ⟨i, hi, hij⟩ := h
    have h1 := applyVisits_visited host time rnd1 start l n hn i hi
    have h2 := applyVisits_visited host time rnd2 start
      (applyVisits host time rnd1 start l n) n (by rw [hlen]; exact hn) i hi
    rw [hlen] at h2
    rw [hij] at h1 h2
    rw [h2, h1]
    cases l[j]? with
    | none => rfl
    | some s =>
      simp only [Option.map_some']
      rw [visitSpectator_y_congr host time (rnd1 i) (rnd2 i) s _
        (visitSpectator_sameFixed host time (rnd1 i) s)]
  · have h2 := applyVisits_untouched host time rnd2 start
      (applyVisits host time rnd1 start l n) j n
      (fun i hi heq => h ⟨i, hi, by rw [hlen] at heq; exact heq⟩)
    rw [h2]

theorem applyVisits_twice (host : Host) (time : ℚ) (rnd1 rnd2 : Nat → Draw) (start : Nat)
    (l : List Spectator) (n : Nat) (hn : n ≤ l.length)
    (hoff : ∀ i, ¬ (rnd2 i).val < 1 / 100) :
    applyVisits host time rnd2 start (applyVisits host time rnd1 start l n) n =
      applyVisits host time rnd1 start l n := by
  have hlen := length_applyVisits host time rnd1 start l n
  apply List.ext_getElem?
  intro j
  by_cases h : ∃ i, i < n ∧ (start + i) % l.length = j
  · obtain ⟨i, hi, hij⟩ := h
    have h1 := applyVisits_visited host time rnd1 start l n hn i hi
    have h2 := applyVisits_visited host time rnd2 start
      (applyVisits host time rnd1 start l n) n (by rw [hlen]; exact hn) i hi
    rw [hlen] at h2
    rw [hij] at h1 h2
    rw [h2, h1]
    cases l[j]? with
    | none => rfl
    | some s =>
      simp only [Option.map_some']
      rw [visitSpectator_idem host time (rnd1 i) (rnd2 i) s (hoff i)]
  · exact applyVisits_untouched host time rnd2 start
      (applyVisits host time rnd1 start l n) j n
      (fun i hi heq => h ⟨i, hi, by rw [hlen] at heq; exact heq⟩)

/-- Claim C12. Calling `updateSpectators` a second time with the same frame counter
and the same clock reading leaves every sprite at the height the first call gave it,
whatever the draws; with the toggle disabled in the second call the whole state is
the one after the first call.  The height a completed call writes to the sprite at a
window index is `baseY + max(0, sin(time × speed + phase) × amplitude)`, computed
from the clock reading and the fixed fields of the sprite alone. -/
theorem C12_same_clock_same_height (host : Host) (now : Int) (rnd1 rnd2 : Nat → Draw)
    (f : Int) (m : Module) :
    (∀ j : Nat,
      ((updateSpectators host now rnd2 true f
          (updateSpectators host now rnd1 true f m).state).state.spectators[j]?).map
          (fun s => s.y) =
        ((updateSpectators host now rnd1 true f m).state.spectators[j]?).map (fun s => s.y)) ∧
    ((∀ i, ¬ (rnd2 i).val < 1 / 100) →
      (updateSpectators host now rnd2 true f (updateSpectators host now rnd1 true f m).state).state
        = (updateSpectators host now rnd1 true f m).state) ∧
    ((updateSpectators host now rnd1 true f m).error = none →
      ∀ i, i < updateCount m.spectators.length →
        ∃ (j : Nat) (s t : Spectator), spectatorIdx f m.spectators.length i = (j : Int) ∧
          m.spectators[j]? = some s ∧
          (updateSpectators host now rnd1 true f m).state.spectators[j]? = some t ∧
          t.y = s.baseY +
            max 0 (host.sin ((now : ℚ) * (1 / 1000) * s.speed + s.phase) * s.amplitude)) := by
  rcases Nat.eq_zero_or_pos m.spectators.length with h0 | hpos
  · rw [updateSpectators_inactive host now rnd1 true f m (Or.inr h0),
      updateSpectators_inactive host now rnd2 true f m (Or.inr h0)]
    refine ⟨fun _ => rfl, fun _ => rfl, fun _ i hi => ?_⟩
    have := updateCount_le m.spectators.length
    omega
  · rcases startIdx_cases f m.spectators.length hpos with ⟨s, _, hstart⟩ | ⟨hneg, hlow⟩
    · have h1 := updateSpectators_of_natStart host now rnd1 f m hpos s hstart
      have hlen := length_applyVisits host ((now : ℚ) * (1 / 1000)) rnd1 s m.spectators
        (updateCount m.spectators.length)
      have h2 := updateSpectators_of_natStart host now rnd2 f
        (updateSpectators host now rnd1 true f m).state
        (by rw [length_updateSpectators]; exact hpos) s
        (by rw [length_updateSpectators]; exact hstart)
      rw [length_updateSpectators] at h2
      rw [h2, h1]
      dsimp only
      refine ⟨fun j => ?_, fun hoff => ?_, fun _ i hi => ?_⟩
      · exact applyVisits_twice_y host _ rnd1 rnd2 s m.spectators _ (updateCount_le _) j
      · rw [applyVisits_twice host _ rnd1 rnd2 s m.spectators _ (updateCount_le _) hoff]
      · have hk : (s + i) % m.spectators.length < m.spectators.length := Nat.mod_lt _ hpos
        have hv := applyVisits_visited host ((now : ℚ) * (1 / 1000)) rnd1 s m.spectators _
          (updateCount_le _) i hi
        rw [List.getElem?_eq_getElem hk] at hv
        refine ⟨(s + i) % m.spectators.length, m.spectators[(s + i) % m.spectators.length], _,
          ?_, List.getElem?_eq_getElem hk, hv, visitSpectator_y _ _ _ _⟩
        unfold spectatorIdx
        rw [hstart, ← Nat.cast_add, jsRem_natCast]
    · have h1 := updateSpectators_of_negStart host now rnd1 f m hpos hneg hlow
      have h2 := updateSpectators_of_negStart host now rnd2 f m hpos hneg hlow
      rw [h1]
      dsimp only
      rw [h2]
      refine ⟨fun _ => rfl, fun _ => rfl, fun herr => ?_⟩
      cases herr

/-! ## Where the layout puts a sprite -/

theorem foldl_invariant_mem {σ α : Type} (f : σ → α → σ) (P : σ → Prop) (l : List α)
    (h : ∀ st a, a ∈ l → P st → P (f st a)) (st : σ) (hst : P st) : P (l.foldl f st) := by
  induction l generalizing st with
  | nil => exact hst
  | cons a l ih =>
    exact ih (fun st b hb => h st b (List.mem_cons_of_mem a hb)) (f st a)
      (h st a (List.mem_cons_self a l) hst)

theorem layout_laidOut (host : Host) (rnd : Nat → Draw) (cache : TextureCache) (T : ℚ)
    (st : Layout) (h : ∀ s ∈ st.spectators, LaidOut host rnd cache T s) :
    ∀ s ∈ (sideValues.foldl (layoutSide host rnd cache T) st).spectators,
      LaidOut host rnd cache T s := by
  refine foldl_invariant_mem _
    (fun st : Layout => ∀ s ∈ st.spectators, LaidOut host rnd cache T s) _ ?_ st h
  intro st side hside hst
  refine foldl_invariant_mem _
    (fun st : Layout => ∀ s ∈ st.spectators, LaidOut host rnd cache T s) _ ?_ st hst
  intro st row hrow hst
  refine foldl_invariant_mem _
    (fun st : Layout => ∀ s ∈ st.spectators, LaidOut host rnd cache T s) _ ?_ st hst
  intro st z hz hst
  rcases layoutCell_spectators host rnd cache side (rowX T side row) 8 st z with he | he
  · rw [he]; exact hst
  · rw [he]
    intro s hs
    rcases List.mem_append.mp hs with h1 | h1
    · exact hst s h1
    · rw [List.mem_singleton] at h1
      exact ⟨side, hside, row, List.mem_range.mp hrow, z, hz, st.draws, h1⟩

theorem createSpectators_laidOut (host : Host) (T : ℚ) (rnd : Nat → Draw) (m : Module)
    (h : m.scene ≠ none) :
    ∀ s ∈ (createSpectators host T rnd m).state.spectators,
      LaidOut host rnd buildTextureCache.cache T s := by
  obtain ⟨sc, hsc⟩ := createSpectators_of_scene host T rnd m h
  rw [hsc]
  dsimp only
  exact layout_laidOut host rnd buildTextureCache.cache T _ (fun s hs => by cases hs)

theorem mem_zGrid (z : Int) (h : z ∈ zGrid) :
    ∃ k : Nat, k < 126 ∧ z = 200 - 35 * (k : Int) ∧ -4200 < z ∧ z ≤ 200 := by
  rw [zGrid_eq] at h
  obtain ⟨k, hk, rfl⟩ := List.mem_map.mp h
  have hk' := List.mem_range.mp hk
  exact ⟨k, hk', rfl, by omega, by omega⟩

theorem jitter_bounds (r : Draw) :
    -(5 / 2 : ℚ) ≤ (r.val - 1 / 2) * 5 ∧ (r.val - 1 / 2) * 5 < 5 / 2 := by
  have h0 := r.nonneg
  have h1 := r.lt_one
  constructor <;> linarith

theorem makeSpectator_x (host : Host) (rnd : Nat → Draw) (cache : TextureCache)
    (side : Int) (rX rowY : ℚ) (z : Int) (d : Nat) :
    (makeSpectator host rnd cache side rX rowY z d).x = rX + ((rnd (d + 1)).val - 1 / 2) * 5 :=
  rfl

theorem makeSpectator_z (host : Host) (rnd : Nat → Draw) (cache : TextureCache)
    (side : Int) (rX rowY : ℚ) (z : Int) (d : Nat) :
    (makeSpectator host rnd cache side rX rowY z d).z
      = (z : ℚ) + ((rnd (d + 2)).val - 1 / 2) * 5 :=
  rfl

/-- Claim C14. The sprite of a non-skipped cell with nominal position `(rowX, z)` is
placed at `x = rowX + dx` and `z + dz`, where `dx` and `dz` are `(draw − 0.5) × 5`
for the two draws after the skip test, so `−2.5 ≤ dx < 2.5` and `−2.5 ≤ dz < 2.5`;
every `z` of the grid is `200 − 35k` with `−4200 < z ≤ 200`; and every sprite that
`createSpectators` registers comes from such a cell. -/
theorem C14_jitter_within_bounds (host : Host) (rnd : Nat → Draw) (cache : TextureCache)
    (side : Int) (rX rowY : ℚ) (z : Int) (d : Nat) :
    (makeSpectator host rnd cache side rX rowY z d).x = rX + ((rnd (d + 1)).val - 1 / 2) * 5 ∧
    (makeSpectator host rnd cache side rX rowY z d).z = (z : ℚ) + ((rnd (d + 2)).val - 1 / 2) * 5 ∧
    -(5 / 2 : ℚ) ≤ (makeSpectator host rnd cache side rX rowY z d).x - rX ∧
    (makeSpectator host rnd cache side rX rowY z d).x - rX < 5 / 2 ∧
    -(5 / 2 : ℚ) ≤ (makeSpectator host rnd cache side rX rowY z d).z - (z : ℚ) ∧
    (makeSpectator host rnd cache side rX rowY z d).z - (z : ℚ) < 5 / 2 ∧
    (∀ g, g ∈ zGrid → ∃ k : Nat, k < 126 ∧ g = 200 - 35 * (k : Int) ∧ -4200 < g ∧ g ≤ 200) ∧
    (∀ (T : ℚ) (m : Module), m.scene ≠ none →
      ∀ s ∈ (createSpectators host T rnd m).state.spectators,
        ∃ sd, sd ∈ sideValues ∧ ∃ row, row < rows ∧ ∃ g, g ∈ zGrid ∧
          -(5 / 2 : ℚ) ≤ s.x - rowX T sd row ∧ s.x - rowX T sd row < 5 / 2 ∧
          -(5 / 2 : ℚ) ≤ s.z - (g : ℚ) ∧ s.z - (g : ℚ) < 5 / 2) := by
  have hx := makeSpectator_x host rnd cache side rX rowY z d
  have hz := makeSpectator_z host rnd cache side rX rowY z d
  have jx := jitter_bounds (rnd (d + 1))
  have jz := jitter_bounds (rnd (d + 2))
  refine ⟨hx, hz, by rw [hx]; linarith [jx.1], by rw [hx]; linarith [jx.2],
    by rw [hz]; linarith [jz.1], by rw [hz]; linarith [jz.2], mem_zGrid, ?_⟩
  intro T m hm s hs
  obtain ⟨sd, hsd, row, hrow, g, hg, d', rfl⟩ := createSpectators_laidOut host T rnd m hm s hs
  have kx := jitter_bounds (rnd (d' + 1))
  have kz := jitter_bounds (rnd (d' + 2))
  have hx' := makeSpectator_x host rnd buildTextureCache.cache sd (rowX T sd row) 8 g d'
  have hz' := makeSpectator_z host rnd buildTextureCache.cache sd (rowX T sd row) 8 g d'
  refine ⟨sd, hsd, row, hrow, g, hg, ?_, ?_, ?_, ?_⟩
  · rw [hx']; linarith [kx.1]
  · rw [hx']; linarith [kx.2]
  · rw [hz']; linarith [kz.1]
  · rw [hz']; linarith [kz.2]

theorem mem_sideValues (side : Int) (h : side ∈ sideValues) : side = -1 ∨ side = 1 := by
  simpa [sideValues] using h

theorem rowX_eq (T : ℚ) (side : Int) (row : Nat) :
    rowX T side row = (side : ℚ) * (T / 2 + 100 + 12 * (row : ℚ)) := by
  unfold rowX spectatorOffset
  ring

theorem makeSpectator_rotationY (host : Host) (rnd : Nat → Draw) (cache : TextureCache)
    (side : Int) (rX rowY : ℚ) (z : Int) (d : Nat) :
    (makeSpectator host rnd cache side rX rowY z d).rotationY =
      if side > 0 then -host.PI / 2 else host.PI / 2 :=
  rfl

/-- A sprite made for a cell of side `+1` or `-1` stands beyond the ad boards of its
side and is turned towards the track. -/
theorem makeSpectator_side (host : Host) (rnd : Nat → Draw) (cache : TextureCache) (T : ℚ)
    (side : Int) (row : Nat) (rowY : ℚ) (z : Int) (d : Nat) (hside : side ∈ sideValues) :
    (side = 1 ∧ T / 2 + 30 < (makeSpectator host rnd cache side (rowX T side row) rowY z d).x ∧
      (makeSpectator host rnd cache side (rowX T side row) rowY z d).rotationY = -host.PI / 2) ∨
    (side = -1 ∧
      (makeSpectator host rnd cache side (rowX T side row) rowY z d).x < -(T / 2 + 30) ∧
      (makeSpectator host rnd cache side (rowX T side row) rowY z d).rotationY = host.PI / 2) := by
  have hj := jitter_bounds (rnd (d + 1))
  have hrow : (0 : ℚ) ≤ (row : ℚ) := Nat.cast_nonneg row
  rw [makeSpectator_x, makeSpectator_rotationY, rowX_eq]
  rcases mem_sideValues side hside with h | h
  · right
    subst h
    refine ⟨rfl, ?_, by simp⟩
    push_cast
    linarith [hj.2]
  · left
    subst h
    refine ⟨rfl, ?_, by simp⟩
    push_cast
    linarith [hj.1]

/-- Claim C15. For every track width `T ≥ 0`, a sprite made for a cell of side
`s ∈ {−1, +1}` satisfies `s × x > T/2 + 30 > T/2`, jitter included, and has
`rotation.y = −π/2` on the side `+1` and `+π/2` on the side `−1`; hence every sprite
that `createSpectators` registers is either at `x > T/2 + 30 > 0` facing `−π/2` or
at `x < −(T/2 + 30) < 0` facing `+π/2`. -/
theorem C15_outside_track_and_facing (host : Host) (rnd : Nat → Draw) (T : ℚ) (m : Module)
    (hT : 0 ≤ T) (hscene : m.scene ≠ none) :
    (∀ (cache : TextureCache) (side : Int) (row : Nat) (rowY : ℚ) (z : Int) (d : Nat),
      side ∈ sideValues →
      T / 2 + 30 < (side : ℚ) * (makeSpectator host rnd cache side (rowX T side row) rowY z d).x ∧
      T / 2 < (side : ℚ) * (makeSpectator host rnd cache side (rowX T side row) rowY z d).x ∧
      (makeSpectator host rnd cache side (rowX T side row) rowY z d).rotationY =
        if side > 0 then -host.PI / 2 else host.PI / 2) ∧
    (∀ s ∈ (createSpectators host T rnd m).state.spectators,
      (T / 2 + 30 < s.x ∧ 0 < s.x ∧ s.rotationY = -host.PI / 2) ∨
      (s.x < -(T / 2 + 30) ∧ s.x < 0 ∧ s.rotationY = host.PI / 2)) := by
  refine ⟨?_, ?_⟩
  · intro cache side row rowY z d hside
    refine ⟨?_, ?_, makeSpectator_rotationY _ _ _ _ _ _ _ _⟩
    · rcases makeSpectator_side host rnd cache T side row rowY z d hside with
        ⟨h, hx, _⟩ | ⟨h, hx, _⟩
      · subst h; push_cast; linarith
      · subst h; push_cast; linarith
    · rcases makeSpectator_side host rnd cache T side row rowY z d hside with
        ⟨h, hx, _⟩ | ⟨h, hx, _⟩
      · subst h; push_cast; linarith
      · subst h; push_cast; linarith
  · intro s hs
    obtain ⟨side, hside, row, _, z, _, d, rfl⟩ := createSpectators_laidOut host T rnd m hscene s hs
    rcases makeSpectator_side host rnd buildTextureCache.cache T side row 8 z d hside with
      ⟨_, hx, hr⟩ | ⟨_, hx, hr⟩
    · exact Or.inl ⟨hx, by linarith, hr⟩
    · exact Or.inr ⟨hx, by linarith, hr⟩

theorem C15_outside_track_and_facing_witness :
    (0 : ℚ) ≤ 240 ∧ readyModule.scene ≠ none ∧
    (∀ (cache : TextureCache) (side : Int) (row : Nat) (rowY : ℚ) (z : Int) (d : Nat),
      side ∈ sideValues →
      (240 : ℚ) / 2 + 30 < (side : ℚ) *
        (makeSpectator sampleHost (fun _ => halfDraw) cache side (rowX 240 side row) rowY z d).x ∧
      (240 : ℚ) / 2 < (side : ℚ) *
        (makeSpectator sampleHost (fun _ => halfDraw) cache side (rowX 240 side row) rowY z d).x ∧
      (makeSpectator sampleHost (fun _ => halfDraw) cache side (rowX 240 side row) rowY z
        d).rotationY = if side > 0 then -sampleHost.PI / 2 else sampleHost.PI / 2) ∧
    (∀ s ∈ (createSpectators sampleHost 240 (fun _ => halfDraw) readyModule).state.spectators,
      ((240 : ℚ) / 2 + 30 < s.x ∧ 0 < s.x ∧ s.rotationY = -sampleHost.PI / 2) ∨
      (s.x < -((240 : ℚ) / 2 + 30) ∧ s.x < 0 ∧ s.rotationY = sampleHost.PI / 2)) :=
  ⟨by norm_num, readyModule_scene,
    C15_outside_track_and_facing sampleHost (fun _ => halfDraw) 240 readyModule (by norm_num)
      readyModule_scene⟩

/-! ## No validation of the track width -/

/-- Claim C13 (amended). `createSpectators` does not reject any track width: for every
width, negative ones included, once the module has a scene the call completes
without error, every sprite it registers is the sprite of a grid cell laid out with
that width, and the registry holds 756 sprites when no cell is skipped. -/
theorem C13_any_width_is_laid_out (host : Host) (T : ℚ) (rnd : Nat → Draw) (m : Module)
    (hscene : m.scene ≠ none) :
    (createSpectators host T rnd m).error = none ∧
    (∀ s ∈ (createSpectators host T rnd m).state.spectators,
      LaidOut host rnd buildTextureCache.cache T s) ∧
    ((∀ k, k < 756 → ¬ (rnd (9 * k)).val < 3 / 10) →
      (createSpectators host T rnd m).state.spectators.length = 756) :=
  ⟨(createSpectators_length_le host T rnd m hscene).1,
    createSpectators_laidOut host T rnd m hscene,
    createSpectators_length_full host T rnd m hscene⟩

theorem C13_any_width_is_laid_out_witness :
    readyModule.scene ≠ none ∧
    (createSpectators sampleHost (-100) (fun _ => halfDraw) readyModule).error = none ∧
    (∀ s ∈ (createSpectators sampleHost (-100) (fun _ => halfDraw) readyModule).state.spectators,
      LaidOut sampleHost (fun _ => halfDraw) buildTextureCache.cache (-100) s) ∧
    ((∀ k, k < 756 → ¬ ((fun _ : Nat => halfDraw) (9 * k)).val < 3 / 10) →
      (createSpectators sampleHost (-100) (fun _ => halfDraw) readyModule).state.spectators.length
        = 756) :=
  ⟨readyModule_scene,
    C13_any_width_is_laid_out sampleHost (-100) (fun _ => halfDraw) readyModule
      readyModule_scene⟩

/-- Claim C13 (counterexample). With the negative track width `-100` and every draw
`0.5`, `createSpectators` throws nothing and registers 756 sprites. -/
theorem C13_negative_width_counterexample :
    (createSpectators sampleHost (-100) (fun _ => halfDraw) readyModule).error = none ∧
    (createSpectators sampleHost (-100) (fun _ => halfDraw) readyModule).state.spectators.length
      = 756 ∧
    (createSpectators sampleHost (-100) (fun _ => halfDraw) readyModule).state.spectators ≠ [] := by
  have herr := (createSpectators_length_le sampleHost (-100) (fun _ => halfDraw) readyModule
    readyModule_scene).1
  have hlen := createSpectators_length_full sampleHost (-100) (fun _ => halfDraw) readyModule
    readyModule_scene halfDraw_fill
  refine ⟨herr, hlen, ?_⟩
  intro hnil
  rw [hnil] at hlen
  cases hlen

/-! ## Hoof sound debounce -/

theorem getLast?_cons_some {α : Type} (a : α) (l : List α) :
    ∃ b, (a :: l).getLast? = some b :=
  ⟨_, List.getLast?_eq_getLast _ (List.cons_ne_nil a l)⟩

theorem playHoofSound_sounds_iff (now : Int) (st : SoundState) :
    (playHoofSound now st).2 = true ↔ 80 ≤ now - st.lastHoofTime := by
  unfold playHoofSound HOOF_COOLDOWN
  split
  · simp only [Bool.false_eq_true, false_iff]; omega
  · simp only [true_iff]; omega

theorem playHoofSound_suppressed (now : Int) (st : SoundState)
    (h : (playHoofSound now st).2 = false) : (playHoofSound now st).1 = st := by
  unfold playHoofSound at h ⊢
  split
  · rfl
  · rename_i hc
    rw [if_neg hc] at h
    cases h

theorem playHoofSound_sounded (now : Int) (st : SoundState)
    (h : (playHoofSound now st).2 = true) : (playHoofSound now st).1.lastHoofTime = now := by
  unfold playHoofSound at h ⊢
  split
  · rename_i hc
    rw [if_pos hc] at h
    cases h
  · rfl

theorem soundTimes_cons (st : SoundState) (now : Int) (rest : List Int) :
    soundTimes st (now :: rest) =
      if (playHoofSound now st).2 then now :: soundTimes (playHoofSound now st).1 rest
      else soundTimes (playHoofSound now st).1 rest := rfl

/-- Every sound comes at least 80 ms after the last one before the calls, and any two
sounds are at least 80 ms apart. -/
theorem soundTimes_spaced (st : SoundState) (times : List Int) :
    (∀ t ∈ soundTimes st times, st.lastHoofTime + 80 ≤ t) ∧
    (soundTimes st times).Pairwise (fun a b => a + 80 ≤ b) := by
  induction times generalizing st with
  | nil => exact ⟨fun t ht => (by cases ht), List.Pairwise.nil⟩
  | cons now rest ih =>
    rw [soundTimes_cons]
    cases hs : (playHoofSound now st).2 with
    | false =>
      rw [if_neg (by simp)]
      rw [playHoofSound_suppressed now st hs]
      exact ih st
    | true =>
      rw [if_pos rfl]
      have hnow := (playHoofSound_sounds_iff now st).mp hs
      have hlast := playHoofSound_sounded now st hs
      obtain ⟨h1, h2⟩ := ih (playHoofSound now st).1
      rw [hlast] at h1
      refine ⟨?_, List.Pairwise.cons h1 h2⟩
      intro t ht
      rcases List.mem_cons.mp ht with rfl | ht'
      · omega
      · have := h1 t ht'
        omega

theorem hoofState_cons (st : SoundState) (now : Int) (rest : List Int) :
    hoofState st (now :: rest) = hoofState (playHoofSound now st).1 rest := rfl

/-- The variable `lastHoofTime` holds the clock reading of the last call that played
a sound, or its starting value when none did. -/
theorem hoofState_lastHoofTime (st : SoundState) (times : List Int) :
    (hoofState st times).lastHoofTime = (soundTimes st times).getLast?.getD st.lastHoofTime := by
  induction times generalizing st with
  | nil => rfl
  | cons now rest ih =>
    rw [hoofState_cons, ih, soundTimes_cons]
    cases hs : (playHoofSound now st).2 with
    | false =>
      rw [if_neg (by simp), playHoofSound_suppressed now st hs]
    | true =>
      rw [if_pos rfl, playHoofSound_sounded now st hs]
      cases hrest : soundTimes (playHoofSound now st).1 rest with
      | nil => rfl
      | cons a l =>
        obtain ⟨b, hb⟩ := getLast?_cons_some a l
        obtain ⟨c, hc⟩ := getLast?_cons_some now (a :: l)
        rw [hb, hc]
        rw [List.getLast?_cons_cons, hb] at hc
        exact Option.some.inj hc

/-- Claim C16 (amended). A call of `playHoofSound` plays a sound if and only if its
clock reading is at least 80 ms after `lastHoofTime`, which starts at 0 and
afterwards holds the reading of the last call that played a sound; so the first
call sounds exactly when its reading is at least 80, any two sounds played are at
least 80 ms apart, a call that sounds stores its reading and a suppressed call
leaves `lastHoofTime` unchanged. -/
theorem C16_hoof_debounce (st : SoundState) (now : Int) (times : List Int) :
    ((playHoofSound now st).2 = true ↔ 80 ≤ now - st.lastHoofTime) ∧
    ((playHoofSound now st).2 = false → (playHoofSound now st).1 = st) ∧
    ((playHoofSound now st).2 = true → (playHoofSound now st).1.lastHoofTime = now) ∧
    ((playHoofSound now SoundState.initial).2 = true ↔ 80 ≤ now) ∧
    (hoofState SoundState.initial times).lastHoofTime
      = (soundTimes SoundState.initial times).getLast?.getD 0 ∧
    (soundTimes SoundState.initial times).Pairwise (fun a b => a + 80 ≤ b) ∧
    (∀ t ∈ soundTimes SoundState.initial times, 80 ≤ t) := by
  refine ⟨playHoofSound_sounds_iff now st, playHoofSound_suppressed now st,
    playHoofSound_sounded now st, ?_, hoofState_lastHoofTime SoundState.initial times,
    (soundTimes_spaced SoundState.initial times).2, ?_⟩
  · rw [playHoofSound_sounds_iff]
    show 80 ≤ now - 0 ↔ 80 ≤ now
    omega
  · intro t ht
    have := (soundTimes_spaced SoundState.initial times).1 t ht
    have h0 : SoundState.initial.lastHoofTime = 0 := rfl
    omega

/-- Claim C16 (counterexample). A first call at the clock reading 50 plays no sound;
in the sequence of readings 50, 90, 100 only the call at 90 sounds. -/
theorem C16_first_call_counterexample :
    (playHoofSound 50 SoundState.initial).2 = false ∧
    soundTimes SoundState.initial [50, 90, 100] = [90] := by
  decide

/-! ## Track width -/

theorem clamp_lanes (n : Int) : 8 ≤ max MIN_LANES (min MAX_LANES n) ∧
    max MIN_LANES (min MAX_LANES n) ≤ 20 := by
  unfold MIN_LANES MAX_LANES
  omega

theorem createTrack_width (n : Int) (m : MapState) (h : ¬ (m.trackObjects ≠ 0 ∧ m.scene = none)) :
    getTrackWidth (createTrack n m).state = 30 * max 8 (min 20 n) := by
  unfold createTrack
  rw [if_neg h]
  cases m.scene <;> rfl

theorem createTrack_width_cases (n : Int) (m : MapState) :
    getTrackWidth (createTrack n m).state = getTrackWidth m ∨
    getTrackWidth (createTrack n m).state = 30 * max 8 (min 20 n) := by
  by_cases h : m.trackObjects ≠ 0 ∧ m.scene = none
  · left
    unfold createTrack
    rw [if_pos h]
  · exact Or.inr (createTrack_width n m h)

theorem createTrack_of_scene (n : Int) (m : MapState) (h : m.scene ≠ none) :
    (createTrack n m).error = none ∧ (createTrack n m).state.scene = m.scene ∧
    getTrackWidth (createTrack n m).state = 30 * max 8 (min 20 n) := by
  obtain ⟨sc, hsc⟩ := Option.ne_none_iff_exists'.mp h
  have hn : ¬ (m.trackObjects ≠ 0 ∧ m.scene = none) := fun hh => h hh.2
  refine ⟨?_, ?_, createTrack_width n m hn⟩
  · unfold createTrack
    rw [if_neg hn, hsc]
  · unfold createTrack
    rw [if_neg hn, hsc]

/-- Without a scene nothing is ever added to `trackObjects`, so the clean-up of
`createTrack` cannot throw in a run of calls from the fresh module. -/
theorem createTrack_keeps_empty (n : Int) (m : MapState) (hs : m.scene = none)
    (ht : m.trackObjects = 0) :
    (createTrack n m).state.scene = none ∧ (createTrack n m).state.trackObjects = 0 ∧
    getTrackWidth (createTrack n m).state = 30 * max 8 (min 20 n) := by
  have hn : ¬ (m.trackObjects ≠ 0 ∧ m.scene = none) := fun hh => hh.1 ht
  refine ⟨?_, ?_, createTrack_width n m hn⟩
  · unfold createTrack
    rw [if_neg hn, hs]
  · unfold createTrack
    rw [if_neg hn, hs]

theorem createTracks_cons (n : Int) (ns : List Int) (m : MapState) :
    createTracks (n :: ns) m = createTracks ns (createTrack n m).state := rfl

theorem createTracks_fresh (ns : List Int) (m : MapState) (hs : m.scene = none)
    (ht : m.trackObjects = 0) :
    getTrackWidth (createTracks ns m) =
      (ns.getLast?.map (fun n => 30 * max 8 (min 20 n))).getD (getTrackWidth m) := by
  induction ns generalizing m with
  | nil => rfl
  | cons n ns ih =>
    obtain ⟨h1, h2, h3⟩ := createTrack_keeps_empty n m hs ht
    rw [createTracks_cons, ih _ h1 h2, h3]
    cases ns with
    | nil => rfl
    | cons a l =>
      obtain ⟨b, hb⟩ := getLast?_cons_some a l
      rw [List.getLast?_cons_cons, hb]
      rfl

theorem createTracks_scene (ns : List Int) (m : MapState) (hs : m.scene ≠ none) :
    getTrackWidth (createTracks ns m) =
      (ns.getLast?.map (fun n => 30 * max 8 (min 20 n))).getD (getTrackWidth m) := by
  induction ns generalizing m with
  | nil => rfl
  | cons n ns ih =>
    obtain ⟨_, h2, h3⟩ := createTrack_of_scene n m hs
    rw [createTracks_cons, ih _ (by rw [h2]; exact hs), h3]
    cases ns with
    | nil => rfl
    | cons a l =>
      obtain ⟨b, hb⟩ := getLast?_cons_some a l
      rw [List.getLast?_cons_cons, hb]
      rfl

theorem moveFinishLine_width (z : ℚ) (m : MapState) :
    getTrackWidth (moveFinishLine z m).state = getTrackWidth m := by
  unfold moveFinishLine
  dsimp only
  split
  · rfl
  · cases m.scene <;> rfl

theorem mapReachable_width (m : MapState) (h : MapReachable m) :
    ∃ k : Int, 8 ≤ k ∧ k ≤ 20 ∧ getTrackWidth m = 30 * k := by
  induction h with
  | initial => exact ⟨8, by decide, by decide, rfl⟩
  | initMap sceneRef m _ ih => exact ih
  | createTrack n m _ ih =>
    rcases createTrack_width_cases n m with h | h
    · rw [h]; exact ih
    · exact ⟨max 8 (min 20 n), by omega, by omega, h⟩
  | setFinishLineZ z m _ ih => exact ih
  | moveFinishLine z m _ ih => rw [moveFinishLine_width]; exact ih
  | resetMap m _ ih => exact ih

/-- Claim C17. The track width is 240 on a fresh module; after any run of
`createTrack(n)` calls, from the fresh module or from a state with a scene, it is
`30 × max(8, min(20, n))` for the last `n`, and the starting width for an empty run;
in every state the module can reach it is `30 × k` with `8 ≤ k ≤ 20`, so a multiple
of 30 between 240 and 600; and `setFinishLineZ`, `moveFinishLine`, `resetMap` and
`initMap` leave it as it is. -/
theorem C17_track_width_invariant :
    getTrackWidth MapState.initial = 240 ∧
    (∀ ns : List Int, getTrackWidth (createTracks ns MapState.initial) =
      (ns.getLast?.map (fun n => 30 * max 8 (min 20 n))).getD 240) ∧
    (∀ (ns : List Int) (m : MapState), m.scene ≠ none →
      getTrackWidth (createTracks ns m) =
        (ns.getLast?.map (fun n => 30 * max 8 (min 20 n))).getD (getTrackWidth m)) ∧
    (∀ (n : Int) (m : MapState), m.scene ≠ none →
      (createTrack n m).error = none ∧
      getTrackWidth (createTrack n m).state = 30 * max 8 (min 20 n)) ∧
    (∀ m : MapState, MapReachable m →
      (∃ k : Int, 8 ≤ k ∧ k ≤ 20 ∧ getTrackWidth m = 30 * k) ∧
      240 ≤ getTrackWidth m ∧ getTrackWidth m ≤ 600 ∧ 30 ∣ getTrackWidth m ∧
      0 ≤ getTrackWidth m) ∧
    (∀ (z : ℚ) (sceneRef : Option Scene) (m : MapState),
      getTrackWidth (setFinishLineZ z m) = getTrackWidth m ∧
      getTrackWidth (moveFinishLine z m).state = getTrackWidth m ∧
      getTrackWidth (resetMap m) = getTrackWidth m ∧
      getTrackWidth (initMap sceneRef m) = getTrackWidth m) := by
  refine ⟨rfl, fun ns => createTracks_fresh ns MapState.initial rfl rfl,
    fun ns m hm => createTracks_scene ns m hm,
    fun n m hm => ⟨(createTrack_of_scene n m hm).1, (createTrack_of_scene n m hm).2.2⟩,
    ?_, fun z sceneRef m => ⟨rfl, moveFinishLine_width z m, rfl, rfl⟩⟩
  intro m hm
  obtain ⟨k, h8, h20, hk⟩ := mapReachable_width m hm
  refine ⟨⟨k, h8, h20, hk⟩, by omega, by omega, ⟨k, hk⟩, by omega⟩

end HorseGame
